import Mathlib

/-
Verification of the calTrack USDA food-database synchronization pipeline.

This file shallowly embeds the pipeline code:
  - src/lib/usdaApi.ts      (record mapper, retry policy, sync orchestrator)
  - src/lib/usdaDb.ts       (local food store: search, metadata, count)
  - src/components/UsdaAutoSync.tsx (auto-sync trigger)
  - scripts/download-usda.mjs (offline bulk ETL record shaping)

JavaScript numbers are modelled as exact rationals (ℚ); Math.round is
modelled as round-half-toward-positive-infinity, which is its exact
behaviour.  String case mapping is modelled on the ASCII range (the
JavaScript originals are Unicode-aware; every string that the claims
touch is ASCII).
-/

namespace CalTrack

/-- JavaScript Math.round on exact rational arithmetic: rounds half toward
positive infinity (Math.round(0.5) = 1, Math.round(-0.5) = 0). -/
def jround (q : ℚ) : ℤ := ⌊q + 1 / 2⌋

/-- Substring containment on character lists: JavaScript
String.prototype.includes. -/
def charsContains : List Char → List Char → Bool
  | [], sub => sub.isEmpty
  | c :: t, sub => sub.isPrefixOf (c :: t) || charsContains t sub

/-- JavaScript s.includes(sub). -/
def strIncludes (s sub : String) : Bool := charsContains s.data sub.data

/-- Whitespace characters recognised by the regular-expression class \s and
by String.prototype.trim (restricted to the four characters that can occur
in the data the claims mention). -/
def isSpaceJs (c : Char) : Bool := c = ' ' || c = '\t' || c = '\n' || c = '\r'

/-- Separator class of the regular expression [\s,]+ used by both name
cleanups. -/
def isSepJs (c : Char) : Bool := isSpaceJs c || c = ','

/-- JavaScript String.prototype.toLowerCase, on the ASCII range. -/
def strToLower (s : String) : String := String.mk (s.data.map Char.toLower)

/-- JavaScript String.prototype.trim. -/
def trimJs (s : String) : String :=
  String.mk ((s.data.dropWhile isSpaceJs).reverse.dropWhile isSpaceJs |>.reverse)

/-- Splitting on runs of separator characters, dropping empty pieces:
the combination split([regex for whitespace or comma, one or more]) followed
by .filter(Boolean) used by both name cleanups. -/
def sepFields : List Char → List Char → List (List Char)
  | [], cur => if cur.isEmpty then [] else [cur.reverse]
  | c :: t, cur =>
    if isSepJs c then
      (if cur.isEmpty then sepFields t [] else cur.reverse :: sepFields t [])
    else sepFields t (c :: cur)

/-- str.toLowerCase().split([regex for whitespace or comma]).filter(Boolean):
tokens of a description, lowercased, with empty pieces removed. -/
def sepTokens (s : String) : List (List Char) :=
  sepFields (s.data.map Char.toLower) []

/-- JavaScript str.split(sep) for a one-character separator: keeps empty
pieces (name.split(new String(" ")) in cleanName). -/
def splitOnChar (sep : Char) : List Char → List (List Char)
  | [] => [[]]
  | c :: t =>
    if c = sep then [] :: splitOnChar sep t
    else
      match splitOnChar sep t with
      | [] => [[c]]
      | h :: r => (c :: h) :: r

/-- Array.prototype.join(new String(" ")). -/
def joinSpace : List (List Char) → List Char
  | [] => []
  | [w] => w
  | w :: ws => w ++ ' ' :: joinSpace ws

/-- word.charAt(0).toUpperCase() + word.slice(1). -/
def capitalizeWord (w : List Char) : List Char :=
  match w with
  | [] => []
  | c :: rest => c.toUpper :: rest

namespace UsdaApi

/-- Nutrient id for Energy (kcal) in FoodData Central. -/
def NUTRIENT_ENERGY : ℤ := 1008
/-- Nutrient id for Protein (g). -/
def NUTRIENT_PROTEIN : ℤ := 1003
/-- Nutrient id for Total lipid / fat (g). -/
def NUTRIENT_FAT : ℤ := 1004
/-- Nutrient id for Carbohydrate by difference (g). -/
def NUTRIENT_CARBS : ℤ := 1005

/-- One entry of a raw record nutrient list (interface UsdaFoodNutrient). -/
structure UsdaFoodNutrient where
  nutrientId : ℤ
  nutrientName : String
  value : ℚ
  unitName : String
deriving DecidableEq, Repr

/-- One raw food record from the remote search API (interface
UsdaSearchFood). -/
structure UsdaSearchFood where
  fdcId : ℤ
  description : String
  foodNutrients : List UsdaFoodNutrient
  servingSize : Option ℚ
  servingSizeUnit : Option String
  foodCategory : Option String
  dataType : Option String
deriving DecidableEq, Repr

/-- One page of the remote search API response (interface
UsdaSearchResponse). -/
structure UsdaSearchResponse where
  foods : List UsdaSearchFood
  totalHits : ℕ
  totalPages : ℕ
  currentPage : ℕ
deriving DecidableEq, Repr

/-- A stored record of the local food store (interface UsdaStoredFood).
nameLower is optional in the source type. -/
structure UsdaStoredFood where
  fdcId : ℤ
  name : String
  nameLower : Option String
  calories : ℤ
  protein : ℚ
  carbs : ℚ
  fat : ℚ
  serving : String
  servingGrams : ℤ
  category : String
deriving DecidableEq, Repr

/-- usdaApi.ts extractNutrient: find the nutrient by id and round its value
to one decimal place; 0 when missing. -/
def extractNutrient (nutrients : List UsdaFoodNutrient) (id : ℤ) : ℚ :=
  match nutrients.find? (fun n => n.nutrientId == id) with
  | some n => (jround (n.value * 10) : ℚ) / 10
  | none => 0

/-- usdaApi.ts mapCategory: keyword classification of the free-text USDA
category. An absent or empty category string is falsy in JavaScript and
yields the generic category. -/
def mapCategory (usdaCategory : Option String) : String :=
  match usdaCategory with
  | none => "usda"
  | some s =>
    if s = "" then "usda"
    else
      let cat := strToLower s
      if strIncludes cat "poultry" || strIncludes cat "beef" || strIncludes cat "pork" ||
         strIncludes cat "lamb" || strIncludes cat "fish" || strIncludes cat "seafood" ||
         strIncludes cat "meat" then "protein"
      else if strIncludes cat "dairy" || strIncludes cat "cheese" || strIncludes cat "milk" ||
         strIncludes cat "yogurt" then "dairy"
      else if strIncludes cat "cereal" || strIncludes cat "grain" || strIncludes cat "bread" ||
         strIncludes cat "pasta" || strIncludes cat "baked" || strIncludes cat "rice" then "grain"
      else if strIncludes cat "fruit" then "fruit"
      else if strIncludes cat "vegetable" || strIncludes cat "legume" then "vegetable"
      else if strIncludes cat "nut" || strIncludes cat "seed" then "snack"
      else if strIncludes cat "beverage" then "beverage"
      else if strIncludes cat "bean" || strIncludes cat "pea" || strIncludes cat "lentil" then "legume"
      else if strIncludes cat "restaurant" || strIncludes cat "fast food" then "restaurant"
      else "usda"

/-- usdaApi.ts titleCase: lowercase, split on whitespace and commas, drop
empty tokens, capitalize each token, rejoin with single spaces.  It performs
no deduplication of repeated leading tokens. -/
def titleCase (str : String) : String :=
  String.mk (joinSpace ((sepTokens str).map capitalizeWord))

/-- usdaApi.ts mapUsdaFood: raw record to stored record.  It is a total
function: no input is skipped, whatever its computed calories. -/
def mapUsdaFood (food : UsdaSearchFood) : UsdaStoredFood :=
  let servingGrams : ℤ :=
    match food.servingSize with
    | some s => if 0 < s then jround s else 100
    | none => 100
  let servingUnit : String :=
    match food.servingSizeUnit with
    | none => "g"
    | some u => if strToLower u = "" then "g" else strToLower u
  let servingLabel : String :=
    if servingUnit = "ml" then toString servingGrams ++ "ml" else toString servingGrams ++ "g"
  let scale : ℚ := (servingGrams : ℚ) / 100
  { fdcId := food.fdcId
    name := titleCase food.description
    nameLower := some (strToLower food.description)
    calories := jround (extractNutrient food.foodNutrients NUTRIENT_ENERGY * scale)
    protein := (jround (extractNutrient food.foodNutrients NUTRIENT_PROTEIN * scale * 10) : ℚ) / 10
    carbs := (jround (extractNutrient food.foodNutrients NUTRIENT_CARBS * scale * 10) : ℚ) / 10
    fat := (jround (extractNutrient food.foodNutrients NUTRIENT_FAT * scale * 10) : ℚ) / 10
    serving := servingLabel
    servingGrams := servingGrams
    category := mapCategory food.foodCategory }

end UsdaApi

namespace UsdaDb

open UsdaApi

/-- Match test of one scanned record in usdaDb.ts searchUsdaLocal:
food.nameLower?.includes(q) || food.name.toLowerCase().includes(q); an
absent nameLower is undefined, hence falsy. -/
def searchMatches (q : String) (food : UsdaStoredFood) : Bool :=
  (match food.nameLower with
   | some nl => strIncludes nl q
   | none => false) || strIncludes (strToLower food.name) q

/-- Cursor loop of usdaDb.ts searchUsdaLocal: the store is scanned in
cursor order; the loop resolves as soon as the cursor is exhausted or the
accumulated results have reached the limit. -/
def searchScan (q : String) (limit : ℕ) : List UsdaStoredFood → List UsdaStoredFood → List UsdaStoredFood
  | [], results => results
  | food :: rest, results =>
    if limit ≤ results.length then results
    else searchScan q limit rest (if searchMatches q food then results ++ [food] else results)

/-- usdaDb.ts searchUsdaLocal on the successful-path (database opened, no
cursor error): a query whose trimmed length is below 2 returns empty before
any scan, otherwise the cursor scan runs with the lowercased query. -/
def searchUsdaLocal (query : String) (limit : ℕ) (store : List UsdaStoredFood) : List UsdaStoredFood :=
  if (trimJs query).length < 2 then []
  else searchScan (strToLower query) limit store []

/-- IndexedDB store.put keyed by fdcId: write-or-replace one record. -/
def upsert (store : List UsdaStoredFood) (food : UsdaStoredFood) : List UsdaStoredFood :=
  if store.any (fun g => g.fdcId == food.fdcId) then
    store.map (fun g => if g.fdcId == food.fdcId then food else g)
  else store ++ [food]

/-- usdaDb.ts storeUsdaFoods: put every record of the batch (upsert by
fdcId), modelled on a list snapshot of the object store. -/
def storeUsdaFoods (store : List UsdaStoredFood) (foods : List UsdaStoredFood) : List UsdaStoredFood :=
  foods.foldl upsert store

/-- The record stored under key "syncInfo" in the meta object store, as
written by updateSyncMeta in usdaDb.ts. -/
structure UsdaMetaRow where
  count : ℕ
  lastSync : Option String
deriving DecidableEq, Repr

/-- Resolved value of getUsdaMeta in usdaDb.ts. -/
structure UsdaMetaResult where
  synced : Bool
  count : ℕ
  lastSync : Option String
deriving DecidableEq, Repr

/-- usdaDb.ts getUsdaMeta with the two underlying storage outcomes made
explicit: openDb may reject (first argument) and the get request may fail
or return no row (second argument).  A failed get request resolves the
unsynced fallback; a failed open propagates as a rejection. -/
def getUsdaMeta (openDb : Except String Unit) (req : Except String (Option UsdaMetaRow)) :
    Except String UsdaMetaResult :=
  match openDb with
  | .error e => .error e
  | .ok _ =>
    .ok (match req with
      | .error _ => { synced := false, count := 0, lastSync := none }
      | .ok none => { synced := false, count := 0, lastSync := none }
      | .ok (some row) => { synced := true, count := row.count, lastSync := row.lastSync })

/-- usdaDb.ts searchUsdaLocal with the underlying storage outcomes made
explicit: the short-query guard runs before the database is opened; a
cursor error resolves the empty list, discarding partial results; a failed
open propagates as a rejection. -/
def searchUsdaLocalRun (query : String) (limit : ℕ) (openDb : Except String Unit)
    (store : List UsdaStoredFood) (cursorError : Bool) : Except String (List UsdaStoredFood) :=
  if (trimJs query).length < 2 then .ok []
  else
    match openDb with
    | .error e => .error e
    | .ok _ => .ok (if cursorError then [] else searchScan (strToLower query) limit store [])

/-- usdaDb.ts getUsdaFoodCount with the underlying storage outcomes made
explicit: a failed count request resolves 0; a failed open propagates. -/
def getUsdaFoodCount (openDb : Except String Unit) (req : Except String ℕ) : Except String ℕ :=
  match openDb with
  | .error e => .error e
  | .ok _ =>
    .ok (match req with
      | .error _ => 0
      | .ok n => n)

end UsdaDb

namespace DlUsda

/-- scripts/download-usda.mjs MAX_NAME_LENGTH. -/
def MAX_NAME_LENGTH : ℕ := 80

/-- download-usda.mjs mapCategory: single-character category codes chosen
by regular-expression keyword tests on the lowercased category string; an
absent or empty category is falsy and yields "u". -/
def mapCategory (cat : String) : String :=
  if cat = "" then "u"
  else
    let c := strToLower cat
    if strIncludes c "poultry" || strIncludes c "beef" || strIncludes c "pork" ||
       strIncludes c "lamb" || strIncludes c "fish" || strIncludes c "seafood" ||
       strIncludes c "meat" then "p"
    else if strIncludes c "dairy" || strIncludes c "cheese" || strIncludes c "milk" ||
       strIncludes c "yogurt" then "d"
    else if strIncludes c "cereal" || strIncludes c "grain" || strIncludes c "bread" ||
       strIncludes c "pasta" || strIncludes c "baked" || strIncludes c "rice" then "g"
    else if strIncludes c "fruit" then "f"
    else if strIncludes c "vegetable" || strIncludes c "legume" then "v"
    else if strIncludes c "nut" || strIncludes c "seed" then "s"
    else if strIncludes c "beverage" then "b"
    else if strIncludes c "bean" || strIncludes c "pea" || strIncludes c "lentil" then "l"
    else if strIncludes c "restaurant" || strIncludes c "fast food" then "r"
    else "u"

/-- download-usda.mjs cleanName: title-case (lowercase, split on whitespace
and commas, capitalize, rejoin with single spaces), then drop a duplicated
leading token when there are at least three tokens and the first two agree
case-insensitively, then truncate to MAX_NAME_LENGTH with an ellipsis. -/
def cleanName (str : String) : String :=
  let name := joinSpace ((sepFields (str.data.map Char.toLower) []).map capitalizeWord)
  let words := splitOnChar ' ' name
  let name :=
    match words with
    | w0 :: w1 :: w2 :: rest =>
      if w0.map Char.toLower = w1.map Char.toLower then joinSpace (w1 :: w2 :: rest) else name
    | _ => name
  let name := if MAX_NAME_LENGTH < name.length then name.take (MAX_NAME_LENGTH - 1) ++ ['…'] else name
  String.mk name

/-- The compact per-food nutrient accumulator of the ETL, a Float64Array of
four slots in the source: [calories, protein, fat, carbs] per 100 units. -/
structure NutrientSlots where
  cal : ℚ
  protein : ℚ
  fat : ℚ
  carbs : ℚ
deriving DecidableEq, Repr

/-- One parsed row of food.csv, restricted to the fields the pipeline
reads. -/
structure FoodRow where
  fdc_id : String
  description : String
  food_category_id : String
deriving DecidableEq, Repr

/-- One element of the output foods array of the ETL (a fixed-order tuple
in the JSON artifact).  The source writes parseInt(fdc_id); the identifier
is kept as its raw digit string here, which no claim depends on. -/
structure EtlEntry where
  fdcId : String
  name : String
  calories : ℤ
  protein : ℤ
  carbs : ℤ
  fat : ℤ
  serving : String
  servingGrams : ℤ
  categoryCode : String
deriving DecidableEq, Repr

/-- Body of the food.csv streaming step (step 4 of download-usda.mjs): join
one food row against the in-memory nutrient, serving and category lookups
and produce one output entry, or skip the row when it has no nutrient data
or its per-100-unit calories are not positive. -/
def etlFoodEntry (nutrients : List (String × NutrientSlots))
    (servings : List (String × ℚ × String)) (categories : List (String × String))
    (row : FoodRow) : Option EtlEntry :=
  match nutrients.lookup row.fdc_id with
  | none => none
  | some n =>
    if n.cal ≤ 0 then none
    else
      let srv := servings.lookup row.fdc_id
      let sg : ℤ :=
        match srv with
        | some (size, _) => jround size
        | none => 100
      let unit : String :=
        match srv with
        | some (_, u) => u
        | none => "g"
      let serving := if unit = "ml" then toString sg ++ "ml" else toString sg ++ "g"
      let scale : ℚ := (sg : ℚ) / 100
      let catDesc := (categories.lookup row.food_category_id).getD ""
      some { fdcId := row.fdc_id
             name := cleanName row.description
             calories := jround (n.cal * scale)
             protein := jround (n.protein * scale)
             carbs := jround (n.carbs * scale)
             fat := jround (n.fat * scale)
             serving := serving
             servingGrams := sg
             categoryCode := mapCategory catDesc }

/-- The streamed foods array of the output artifact: every food.csv row in
order, each mapped by etlFoodEntry, skipped rows omitted. -/
def etlFoods (nutrients : List (String × NutrientSlots))
    (servings : List (String × ℚ × String)) (categories : List (String × String))
    (rows : List FoodRow) : List EtlEntry :=
  rows.filterMap (etlFoodEntry nutrients servings categories)

end DlUsda

namespace UsdaApi

/-- usdaApi.ts MAX_RETRIES. -/
def MAX_RETRIES : ℕ := 5
/-- usdaApi.ts INITIAL_BACKOFF_MS (doubles each retry). -/
def INITIAL_BACKOFF_MS : ℕ := 2000
/-- usdaApi.ts RATE_LIMIT_WAIT_MS. -/
def RATE_LIMIT_WAIT_MS : ℕ := 61000

/-- The AbortSignal, modelled by the time at which it becomes (and stays)
aborted; time is counted in emitted trace events.  none is a signal that
never aborts. -/
def abortedAt (abortAt : Option ℕ) (clock : ℕ) : Bool :=
  match abortAt with
  | some t => t ≤ clock
  | none => false

/-- Outcome of one underlying fetch call: an HTTP response with a status
code, or a network-level failure (rejected fetch). -/
inductive FetchOutcome where
  | response (status : ℕ)
  | netError
deriving DecidableEq, Repr

/-- Events of one fetchWithRetry call: signal consultations, fetch
attempts, and sleeps with their duration in milliseconds. -/
inductive REvent where
  | check
  | attempt (n : ℕ)
  | sleep (ms : ℕ)
deriving DecidableEq, Repr

/-- Result of one fetchWithRetry call.  httpError is the thrown
"USDA API error" after the retry budget is spent on it; maxRetriesExceeded
is the fall-through throw after the loop. -/
inductive RResult where
  | success (status : ℕ)
  | httpError (status : ℕ)
  | networkFailure
  | maxRetriesExceeded
  | cancelled
deriving DecidableEq, Repr

/-- usdaApi.ts sleep(ms, signal): rejects immediately when the signal is
already aborted on entry, otherwise sleeps, interruptibly — an abort during
the timer window also rejects with the cancellation error. -/
def sleepR (abortAt : Option ℕ) (ms : ℕ) (tr : List REvent) : Except (List REvent) (List REvent) :=
  let tr1 := tr ++ [REvent.check]
  if abortedAt abortAt tr.length then .error tr1
  else
    let tr2 := tr1 ++ [REvent.sleep ms]
    if abortedAt abortAt tr1.length then .error tr2 else .ok tr2

/-- Loop body of usdaApi.ts fetchWithRetry, by fuel (the loop runs
MAX_RETRIES + 1 iterations).  responses gives the outcome of the underlying
fetch on each attempt.  Faithful detail: the throw for a non-ok, non-429,
non-5xx status sits inside the try block, so its error is caught by the
same catch clause and retried with backoff like a network error; an abort
arriving while the request is in flight rejects the fetch itself, and the
catch clause then runs the backoff sleep whose entry check observes the
abort. -/
def fetchWithRetryGo (responses : ℕ → FetchOutcome) (abortAt : Option ℕ) :
    ℕ → ℕ → List REvent → List REvent × RResult
  | 0, _, tr => (tr, RResult.maxRetriesExceeded)
  | fuel + 1, attempt, tr =>
    let tr1 := tr ++ [REvent.check]
    if abortedAt abortAt tr.length then (tr1, RResult.cancelled)
    else
      let tr2 := tr1 ++ [REvent.attempt attempt]
      if abortedAt abortAt tr1.length then
        if attempt < MAX_RETRIES then
          match sleepR abortAt (INITIAL_BACKOFF_MS * 2 ^ attempt) tr2 with
          | .error tr3 => (tr3, RResult.cancelled)
          | .ok tr3 => fetchWithRetryGo responses abortAt fuel (attempt + 1) tr3
        else (tr2, RResult.networkFailure)
      else
        match responses attempt with
        | FetchOutcome.netError =>
          if attempt < MAX_RETRIES then
            match sleepR abortAt (INITIAL_BACKOFF_MS * 2 ^ attempt) tr2 with
            | .error tr3 => (tr3, RResult.cancelled)
            | .ok tr3 => fetchWithRetryGo responses abortAt fuel (attempt + 1) tr3
          else (tr2, RResult.networkFailure)
        | FetchOutcome.response status =>
          if status = 429 then
            match sleepR abortAt RATE_LIMIT_WAIT_MS tr2 with
            | .error tr3 => (tr3, RResult.cancelled)
            | .ok tr3 => fetchWithRetryGo responses abortAt fuel (attempt + 1) tr3
          else if 200 ≤ status ∧ status < 300 then (tr2, RResult.success status)
          else if 500 ≤ status ∧ attempt < MAX_RETRIES then
            match sleepR abortAt (INITIAL_BACKOFF_MS * 2 ^ attempt) tr2 with
            | .error tr3 => (tr3, RResult.cancelled)
            | .ok tr3 => fetchWithRetryGo responses abortAt fuel (attempt + 1) tr3
          else
            if attempt < MAX_RETRIES then
              match sleepR abortAt (INITIAL_BACKOFF_MS * 2 ^ attempt) tr2 with
              | .error tr3 => (tr3, RResult.cancelled)
              | .ok tr3 => fetchWithRetryGo responses abortAt fuel (attempt + 1) tr3
            else (tr2, RResult.httpError status)

/-- usdaApi.ts fetchWithRetry: at most MAX_RETRIES + 1 attempts. -/
def fetchWithRetry (responses : ℕ → FetchOutcome) (abortAt : Option ℕ) : List REvent × RResult :=
  fetchWithRetryGo responses abortAt (MAX_RETRIES + 1) 0 []

/-- Adjacency discipline of a retry-wrapper trace: a sleep is immediately
preceded by a signal consultation. -/
def RstepOK (a b : REvent) : Prop :=
  ∀ ms, b = REvent.sleep ms → a = REvent.check

/-- usdaApi.ts PAGE_SIZE (maximum the API allows). -/
def PAGE_SIZE : ℕ := 200
/-- Number of entries of the dataTypes array
["SR Legacy", "Foundation", "Branded"]; partitions are identified by their
index below. -/
def dataTypesCount : ℕ := 3

/-- The resume checkpoint persisted by saveResumeState after every stored
page. -/
structure ResumeState where
  dataTypeIndex : ℕ
  pageNumber : ℕ
  totalStored : ℕ
  grandTotal : ℕ
deriving DecidableEq, Repr

/-- Events of one syncUsdaDatabase run: signal consultations, remote
requests (partition index, page size, page number), batch writes to the
store, checkpoint writes, checkpoint clearing and the final metadata
write.  Progress reporting is a pure callback and is not traced. -/
inductive SyncEvent where
  | check
  | fetch (dataTypeIndex pageSize pageNumber : ℕ)
  | store (batch : List UsdaStoredFood)
  | saveResume (cp : ResumeState)
  | clearResume
  | updateMeta (totalStored : ℕ)
deriving DecidableEq, Repr

/-- The remote paginated source: partition index, page size and page number
determine the response. -/
def Remote : Type := ℕ → ℕ → ℕ → UsdaSearchResponse

/-- Signal consultation (if signal aborted, throw the cancellation
error). -/
def checkS (abortAt : Option ℕ) (tr : List SyncEvent) : Except (List SyncEvent) (List SyncEvent) :=
  let tr1 := tr ++ [SyncEvent.check]
  if abortedAt abortAt tr.length then .error tr1 else .ok tr1

/-- One remote request as issued through fetchWithRetry on the success
path: the wrapper consults the signal at the top of its attempt loop, then
the request runs; the request itself carries the signal, so an abort while
it is in flight rejects it and the run cancels (retry-internal events are
modelled separately by fetchWithRetryGo). -/
def fetchS (abortAt : Option ℕ) (remote : Remote) (dt ps pn : ℕ) (tr : List SyncEvent) :
    Except (List SyncEvent) (List SyncEvent × UsdaSearchResponse) := do
  let tr1 ← checkS abortAt tr
  let tr2 := tr1 ++ [SyncEvent.fetch dt ps pn]
  if abortedAt abortAt tr1.length then .error tr2
  else .ok (tr2, remote dt ps pn)

/-- Body of the inner page loop of syncUsdaDatabase (one page ≥ 2 of one
partition): signal check at the top of the iteration, fetch through the
retry wrapper, map the page through the record mapper, store the batch, and
persist the checkpoint pointing at the next page. -/
def pageStep (abortAt : Option ℕ) (remote : Remote) (dt page ts g : ℕ) (tr : List SyncEvent) :
    Except (List SyncEvent) (List SyncEvent × ℕ) := do
  let tr1 ← checkS abortAt tr
  let (tr2, resp) ← fetchS abortAt remote dt PAGE_SIZE page tr1
  let batch := resp.foods.map mapUsdaFood
  let ts1 := ts + batch.length
  .ok (tr2 ++ [SyncEvent.store batch, SyncEvent.saveResume ⟨dt, page + 1, ts1, g⟩], ts1)

/-- The inner page loop over its list of page numbers. -/
def pagesLoop (abortAt : Option ℕ) (remote : Remote) (dt g : ℕ) :
    List ℕ → ℕ → List SyncEvent → Except (List SyncEvent) (List SyncEvent × ℕ)
  | [], ts, tr => .ok (tr, ts)
  | p :: rest, ts, tr => do
    let (tr1, ts1) ← pageStep abortAt remote dt p ts g tr
    pagesLoop abortAt remote dt g rest ts1 tr1

/-- One iteration of the outer partition loop of syncUsdaDatabase: probe
page 1 of the partition at full page size to learn the page count, store
the probe page (with its checkpoint) only when this partition starts fresh
at page 1, then run the page loop from max(firstPageNum, 2) to
totalPages. -/
def partitionStep (abortAt : Option ℕ) (remote : Remote) (startIdx startPage dt ts g : ℕ)
    (tr : List SyncEvent) : Except (List SyncEvent) (List SyncEvent × ℕ) := do
  let (tr1, probe) ← fetchS abortAt remote dt PAGE_SIZE 1 tr
  let totalPages := (probe.totalHits + PAGE_SIZE - 1) / PAGE_SIZE
  let firstPageNum := if dt = startIdx then startPage else 1
  let st :=
    if firstPageNum = 1 then
      let batch := probe.foods.map mapUsdaFood
      let ts1 := ts + batch.length
      (tr1 ++ [SyncEvent.store batch, SyncEvent.saveResume ⟨dt, 2, ts1, g⟩], ts1)
    else (tr1, ts)
  pagesLoop abortAt remote dt g
    (List.range' (max firstPageNum 2) (totalPages + 1 - max firstPageNum 2)) st.2 st.1

/-- The outer partition loop over its list of partition indices. -/
def partitionsLoop (abortAt : Option ℕ) (remote : Remote) (startIdx startPage g : ℕ) :
    List ℕ → ℕ → List SyncEvent → Except (List SyncEvent) (List SyncEvent × ℕ)
  | [], ts, tr => .ok (tr, ts)
  | dt :: rest, ts, tr => do
    let (tr1, ts1) ← partitionStep abortAt remote startIdx startPage dt ts g tr
    partitionsLoop abortAt remote startIdx startPage g rest ts1 tr1

/-- The grand-total probe loop (runs only when no cached grand total is
available): one page-size-1 request per partition, summing totalHits. -/
def countProbes (abortAt : Option ℕ) (remote : Remote) :
    List ℕ → ℕ → List SyncEvent → Except (List SyncEvent) (List SyncEvent × ℕ)
  | [], g, tr => .ok (tr, g)
  | dt :: rest, g, tr => do
    let (tr1, resp) ← fetchS abortAt remote dt 1 1 tr
    countProbes abortAt remote rest (g + resp.totalHits) tr1

/-- usdaApi.ts syncUsdaDatabase: read the resume checkpoint, probe the
grand total when it is unknown, run all partitions from the resume point,
then clear the checkpoint and write the sync metadata.  The result is the
event trace; a cancellation carries the trace up to the point where the
abort was observed. -/
def syncUsdaDatabase (remote : Remote) (resume : Option ResumeState) (abortAt : Option ℕ) :
    Except (List SyncEvent) (List SyncEvent) := do
  let startIdx :=
    match resume with
    | some r => r.dataTypeIndex
    | none => 0
  let startPage :=
    match resume with
    | some r => r.pageNumber
    | none => 1
  let ts0 :=
    match resume with
    | some r => r.totalStored
    | none => 0
  let g0 :=
    match resume with
    | some r => r.grandTotal
    | none => 0
  let init ←
    if g0 = 0 then countProbes abortAt remote [0, 1, 2] 0 []
    else pure ([], g0)
  let res ← partitionsLoop abortAt remote startIdx startPage init.2
    (List.range' startIdx (dataTypesCount - startIdx)) ts0 init.1
  .ok (res.1 ++ [SyncEvent.clearResume, SyncEvent.updateMeta res.2])

/-- The event trace of a run, whether it completed or was cancelled. -/
def syncTrace (remote : Remote) (resume : Option ResumeState) (abortAt : Option ℕ) :
    List SyncEvent :=
  match syncUsdaDatabase remote resume abortAt with
  | .ok tr => tr
  | .error tr => tr

/-- Replay the batch writes of a trace against a store snapshot. -/
def applyEvents (events : List SyncEvent) (st : List UsdaStoredFood) : List UsdaStoredFood :=
  events.foldl
    (fun st e =>
      match e with
      | SyncEvent.store b => UsdaDb.storeUsdaFoods st b
      | _ => st) st

/-- Contents of the local food store after an uncancelled run over an
initially empty store. -/
def syncStore (remote : Remote) (resume : Option ResumeState) : List UsdaStoredFood :=
  applyEvents (syncTrace remote resume none) []

end UsdaApi

namespace AutoSync

open UsdaApi

/-- Modelled from the spec: the current sync version constant.  usdaDb.ts
under src does not contain the SYNC_VERSION export that UsdaAutoSync.tsx
and page.tsx import (the snapshot predates it; the repository
documentation records SYNC_VERSION = 2 in usdaDb.ts). -/
def SYNC_VERSION : ℕ := 2

/-- Modelled from the spec: the sync metadata singleton as read by the
trigger — whether a sync has completed, the version it completed at, the
stored count and a timestamp (spec section 3, SyncMeta). -/
structure SyncMeta where
  synced : Bool
  syncVersion : ℕ
  count : ℕ
  lastSync : Option String
deriving DecidableEq, Repr

/-- UsdaAutoSync.tsx effect body: read the metadata; skip when already
synced at the current version; otherwise start syncUsdaDatabase.  The
result is the trace of events the trigger causes. -/
def UsdaAutoSync (meta : SyncMeta) (remote : Remote) (resume : Option ResumeState) :
    List SyncEvent :=
  if meta.synced = true ∧ SYNC_VERSION ≤ meta.syncVersion then []
  else syncTrace remote resume none

end AutoSync

namespace UsdaApi

/-- The trace of a possibly-cancelled helper result. -/
def outTrace : Except (List SyncEvent) (List SyncEvent × ℕ) → List SyncEvent
  | .ok (tr, _) => tr
  | .error tr => tr

/-- The totalStored values of the checkpoint writes of a trace, in trace
order. -/
def savedTotals (tr : List SyncEvent) : List ℕ :=
  tr.filterMap
    (fun e =>
      match e with
      | SyncEvent.saveResume cp => some cp.totalStored
      | _ => none)

/-- Page count of a partition as the orchestrator computes it from the
probe response: Math.ceil(totalHits / PAGE_SIZE). -/
def totalPagesOf (remote : Remote) (dt : ℕ) : ℕ :=
  ((remote dt PAGE_SIZE 1).totalHits + PAGE_SIZE - 1) / PAGE_SIZE

/-- Adjacency discipline of an orchestrator trace: a remote request is
immediately preceded by a signal consultation, and a batch write is
immediately followed by a checkpoint write. -/
def stepOK (a b : SyncEvent) : Prop :=
  (∀ dt ps pn, b = SyncEvent.fetch dt ps pn → a = SyncEvent.check) ∧
  (∀ batch, a = SyncEvent.store batch → ∃ cp, b = SyncEvent.saveResume cp)

/-- Trace invariant of every orchestrator run: consecutive events respect
stepOK, the trace does not end in a batch write, and it does not start with
a remote request. -/
def invTrace (tr : List SyncEvent) : Prop :=
  List.Chain' stepOK tr ∧ (∀ b, tr.getLast? ≠ some (SyncEvent.store b)) ∧
    (∀ dt ps pn, tr.head? ≠ some (SyncEvent.fetch dt ps pn))

/-- Shape of the events one partition iteration can contribute: signal
checks; fetches of the probe page 1 or of a data page between
max(firstPageNum, 2) and the page count; batch writes of the mapped records
of the probe page (only when the partition starts fresh at page 1) or of a
data page; and checkpoint writes for this partition with a running total at
least the entry total and a next page of at least 2. -/
def partEv (remote : Remote) (startIdx startPage dt ts g : ℕ) (e : SyncEvent) : Prop :=
  e = SyncEvent.check ∨
  (∃ p, (p = 1 ∨ (max (if dt = startIdx then startPage else 1) 2 ≤ p ∧
      p ≤ totalPagesOf remote dt)) ∧ e = SyncEvent.fetch dt PAGE_SIZE p) ∨
  (∃ p, ((p = 1 ∧ (if dt = startIdx then startPage else 1) = 1) ∨
      (max (if dt = startIdx then startPage else 1) 2 ≤ p ∧ p ≤ totalPagesOf remote dt)) ∧
    e = SyncEvent.store ((remote dt PAGE_SIZE p).foods.map mapUsdaFood)) ∨
  (∃ q t, ts ≤ t ∧ 2 ≤ q ∧ e = SyncEvent.saveResume ⟨dt, q, t, g⟩)

/-- A remote source whose every page is the single given raw record. -/
def singlePageRemote (f : UsdaSearchFood) : Remote :=
  fun _ _ _ => { foods := [f], totalHits := 1, totalPages := 1, currentPage := 1 }

/-- A remote source with one empty page per partition. -/
def tinyRemote : Remote :=
  fun _ _ _ => { foods := [], totalHits := 1, totalPages := 1, currentPage := 1 }

/-- A remote source with ten empty pages per partition. -/
def emptyPagesRemote : Remote :=
  fun _ _ _ => { foods := [], totalHits := 2000, totalPages := 10, currentPage := 1 }

/-- A raw record whose energy nutrient is present with value 0: its
computed calories are 0. -/
def zeroCalFood : UsdaSearchFood :=
  { fdcId := 7, description := "ZERO BAR",
    foodNutrients := [⟨NUTRIENT_ENERGY, "Energy", 0, "kcal"⟩],
    servingSize := none, servingSizeUnit := none, foodCategory := none, dataType := none }

/-- A raw record whose description contains a comma: title-casing collapses
the separator, so the lowercased display name differs from the lowercased
description. -/
def commaFood : UsdaSearchFood :=
  { fdcId := 8, description := "CHEESE, CHEDDAR",
    foodNutrients := [⟨NUTRIENT_ENERGY, "Energy", 250, "kcal"⟩],
    servingSize := some 150, servingSizeUnit := some "g",
    foodCategory := some "Dairy and Egg Products", dataType := none }

/-- A raw record with the fractional serving size 150.4: the mapper rounds
the serving to 150 grams before scaling, so its calories differ from
round(C * S / 100) computed with the raw serving size. -/
def fractionalServingFood : UsdaSearchFood :=
  { fdcId := 9, description := "FRACTIONAL",
    foodNutrients := [⟨NUTRIENT_ENERGY, "Energy", 1000, "kcal"⟩],
    servingSize := some (752 / 5), servingSizeUnit := some "g",
    foodCategory := none, dataType := none }

/-- The worked example of the spec: 250 kcal per 100 g, 150 g serving. -/
def exampleServingFood : UsdaSearchFood :=
  { fdcId := 10, description := "EXAMPLE",
    foodNutrients := [⟨NUTRIENT_ENERGY, "Energy", 2500 / 10, "kcal"⟩],
    servingSize := some 150, servingSizeUnit := some "g",
    foodCategory := none, dataType := none }

end UsdaApi

namespace UsdaDb

/-- A stored record matching the query "chicken". -/
def chickenRecord : UsdaApi.UsdaStoredFood :=
  { fdcId := 1, name := "Chicken Breast", nameLower := some "chicken breast",
    calories := 165, protein := 31, carbs := 0, fat := 4, serving := "100g",
    servingGrams := 100, category := "protein" }

/-- A store holding fifty records that match the query "chicken". -/
def chickenStore : List UsdaApi.UsdaStoredFood := List.replicate 50 chickenRecord

end UsdaDb

open UsdaApi UsdaDb DlUsda AutoSync

lemma jround_intCast (k : ℤ) : jround (k : ℚ) = k := by
  have h : ((k : ℚ) + 1 / 2) = (1 / 2 : ℚ) + k := by ring
  rw [jround, h, Int.floor_add_int]
  norm_num

lemma jround_natCast (n : ℕ) : jround (n : ℚ) = n := by
  have h : ((n : ℚ)) = ((n : ℤ) : ℚ) := by push_cast; ring
  rw [h, jround_intCast]

/-- C5: counterexample — the online record mapper title-cases the example
description but performs no deduplication of the repeated leading brand
token, so it does not map to the name the claim states. -/
theorem titleCase_keeps_duplicate_brand :
    titleCase "KRAFT KRAFT SHREDDED CHEDDAR CHEESE" ≠ "Kraft Shredded Cheddar Cheese" := by
  decide

/-- C5 (amended): both paths title-case (lowercase, split on whitespace and
commas, capitalize tokens, rejoin with single spaces), but only the offline
ETL cleanName drops a duplicated leading token; the example maps to
"Kraft Shredded Cheddar Cheese" on the ETL path and to
"Kraft Kraft Shredded Cheddar Cheese" on the online path. -/
theorem name_cleanup_dedup_offline_only :
    cleanName "KRAFT KRAFT SHREDDED CHEDDAR CHEESE" = "Kraft Shredded Cheddar Cheese" ∧
    titleCase "KRAFT KRAFT SHREDDED CHEDDAR CHEESE" = "Kraft Kraft Shredded Cheddar Cheese" :=
  ⟨by decide, by decide⟩

/-- C3: evaluation of the retry wrapper at a remote that answers HTTP 404
on every attempt.  The claim (and the spec) state that a 4xx status other
than 429 fails immediately with no sleep and no further attempt; the code
instead throws the HTTP error inside its own try block, catches it in the
catch clause meant for network errors, and retries with exponential
backoff: six attempts and five backoff sleeps before the error
propagates. -/
theorem fetchWithRetry_retries_plain_4xx :
    fetchWithRetry (fun _ => FetchOutcome.response 404) none =
      ([REvent.check, REvent.attempt 0, REvent.check, REvent.sleep 2000,
        REvent.check, REvent.attempt 1, REvent.check, REvent.sleep 4000,
        REvent.check, REvent.attempt 2, REvent.check, REvent.sleep 8000,
        REvent.check, REvent.attempt 3, REvent.check, REvent.sleep 16000,
        REvent.check, REvent.attempt 4, REvent.check, REvent.sleep 32000,
        REvent.check, REvent.attempt 5], RResult.httpError 404) := by
  decide

/-- C4: counterexample — a raw record with per-100 energy 1000 and serving
size 150.4 maps to 1500 calories (the serving is rounded to 150 grams
before scaling), while round(C * S / 100) with the raw serving size is
1504. -/
theorem scale_invariant_counterexample :
    (mapUsdaFood fractionalServingFood).calories = 1500 ∧
    jround ((1000 : ℚ) * (752 / 5) / 100) = 1504 ∧
    (mapUsdaFood fractionalServingFood).calories ≠ jround ((1000 : ℚ) * (752 / 5) / 100) := by
  refine ⟨?_, ?_, ?_⟩
  · simp [mapUsdaFood, extractNutrient, fractionalServingFood, List.find?, NUTRIENT_ENERGY, jround]
    norm_num
  · norm_num [jround]
  · simp [mapUsdaFood, extractNutrient, fractionalServingFood, List.find?, NUTRIENT_ENERGY, jround]
    norm_num

/-- C4 (amended): the scale invariant holds once stated on the values the
mapper actually scales — the serving size rounded to integer grams and the
energy value rounded to one decimal place.  For a raw record whose serving
size is a positive integer S and whose energy value is an exact one-decimal
value k/10, the mapped calories equal round(C * S / 100); the spec example
(C = 250, S = 150, result 375) is an instance. -/
theorem mapUsdaFood_scale (f : UsdaSearchFood) (S : ℕ) (k : ℤ) (nut : UsdaFoodNutrient)
    (hS : f.servingSize = some (S : ℚ)) (hpos : 0 < S)
    (hfind : f.foodNutrients.find? (fun n => n.nutrientId == NUTRIENT_ENERGY) = some nut)
    (hval : nut.value = (k : ℚ) / 10) :
    (mapUsdaFood f).calories = jround ((k : ℚ) / 10 * S / 100) := by
  have hS' : (0 : ℚ) < (S : ℚ) := by exact_mod_cast hpos
  simp only [mapUsdaFood, extractNutrient, hS, hfind, hval, hS', if_pos]
  rw [jround_natCast]
  have h10 : ((k : ℚ) / 10 * 10) = (k : ℚ) := by ring
  rw [h10, jround_intCast]
  congr 1
  push_cast
  ring

/-- C4 witness: the worked example, 250 kcal per 100 g at a 150 g serving,
maps to 375 calories. -/
theorem mapUsdaFood_scale_witness :
    (mapUsdaFood exampleServingFood).calories = jround ((2500 : ℚ) / 10 * 150 / 100) ∧
    jround ((2500 : ℚ) / 10 * 150 / 100) = 375 :=
  ⟨mapUsdaFood_scale exampleServingFood 150 2500 ⟨NUTRIENT_ENERGY, "Energy", 2500 / 10, "kcal"⟩
      (by norm_num [exampleServingFood]) (by norm_num) rfl rfl,
    by norm_num [jround]⟩

/-- C1: counterexample — the online record mapper has no zero-calorie skip:
a raw record whose energy value is 0 maps to a stored record with 0
calories, and a sync over a remote source returning that record leaves it
in the store. -/
theorem zero_calorie_record_stored :
    (mapUsdaFood zeroCalFood).calories = 0 ∧
    syncStore (singlePageRemote zeroCalFood) none = [mapUsdaFood zeroCalFood] := by
  constructor
  · simp [mapUsdaFood, extractNutrient, zeroCalFood, List.find?, NUTRIENT_ENERGY, jround]
    norm_num
  · rfl

/-- C1 (amended): only the offline ETL skips unusable rows, and it does so
exactly when the row has no matched nutrient data or its raw per-100-unit
energy is not positive; the online record mapper skips nothing — every
fetched record, zero-calorie ones included, is written to the store. -/
theorem zero_calorie_policy (nutrients : List (String × NutrientSlots))
    (servings : List (String × ℚ × String)) (categories : List (String × String))
    (row : FoodRow) (n : NutrientSlots) (f : UsdaSearchFood)
    (hlk : nutrients.lookup row.fdc_id = some n) (hcal : n.cal ≤ 0) :
    etlFoodEntry nutrients servings categories row = none ∧
    syncStore (singlePageRemote f) none = [mapUsdaFood f] := by
  constructor
  · simp [etlFoodEntry, hlk, hcal]
  · simp [syncStore, syncTrace, syncUsdaDatabase, countProbes, partitionsLoop, partitionStep,
      pagesLoop, pageStep, fetchS, checkS, abortedAt, singlePageRemote, applyEvents,
      Bind.bind, Except.bind, storeUsdaFoods, upsert, PAGE_SIZE, dataTypesCount, List.range']

/-- C1 witness: a concrete ETL row with energy 0 is skipped, and a concrete
online sync stores its record. -/
theorem zero_calorie_policy_witness :
    etlFoodEntry [("7", ⟨0, 1, 2, 3⟩)] [] [] ⟨"7", "ZERO", ""⟩ = none ∧
    syncStore (singlePageRemote commaFood) none = [mapUsdaFood commaFood] :=
  zero_calorie_policy [("7", ⟨0, 1, 2, 3⟩)] [] [] ⟨"7", "ZERO", ""⟩ ⟨0, 1, 2, 3⟩ commaFood rfl le_rfl

/-- C6: the auto-sync trigger is a no-op when the metadata records a
completed sync at (or above) the current version — no remote request and no
store write happen — and starts a sync run when the recorded version is
older.  The version-bearing metadata accessor is modelled from the spec
because the usdaDb.ts snapshot under src predates the SYNC_VERSION export
that the trigger imports. -/
theorem auto_sync_version_gate (meta : SyncMeta) (remote : Remote) (resume : Option ResumeState) :
    (meta.synced = true → SYNC_VERSION ≤ meta.syncVersion →
      UsdaAutoSync meta remote resume = []) ∧
    (meta.syncVersion < SYNC_VERSION →
      UsdaAutoSync meta remote resume = syncTrace remote resume none) := by
  constructor
  · intro h1 h2
    simp [UsdaAutoSync, h1, h2]
  · intro h
    rw [UsdaAutoSync, if_neg]
    intro hc
    omega

/-- C6 witness: metadata at the current version yields the empty trace;
metadata at version 1 yields the full sync trace. -/
theorem auto_sync_version_gate_witness :
    UsdaAutoSync ⟨true, 2, 100, none⟩ tinyRemote none = [] ∧
    UsdaAutoSync ⟨true, 1, 100, none⟩ tinyRemote none = syncTrace tinyRemote none none :=
  ⟨(auto_sync_version_gate ⟨true, 2, 100, none⟩ tinyRemote none).1 rfl (by decide),
    (auto_sync_version_gate ⟨true, 1, 100, none⟩ tinyRemote none).2 (by decide)⟩

lemma searchScan_eq (q : String) (limit : ℕ) :
    ∀ (store acc : List UsdaStoredFood), acc.length ≤ limit →
      searchScan q limit store acc = acc ++ (store.filter (searchMatches q)).take (limit - acc.length) := by
  intro store
  induction store with
  | nil => intro acc h; simp [searchScan]
  | cons f rest ih =>
    intro acc h
    by_cases hl : limit ≤ acc.length
    · have heq : limit = acc.length := le_antisymm hl h
      rw [searchScan, if_pos hl, heq]
      simp
    · push_neg at hl
      rw [searchScan, if_neg (by omega)]
      by_cases hm : searchMatches q f = true
      · rw [if_pos hm, ih (acc ++ [f]) (by simp; omega)]
        rw [List.filter_cons_of_pos hm]
        rw [show limit - acc.length = (limit - (acc.length + 1)) + 1 by omega]
        simp [List.take_succ_cons]
      · rw [if_neg hm, ih acc h]
        rw [List.filter_cons_of_neg (by simpa using hm)]

lemma searchUsdaLocal_eq (query : String) (limit : ℕ) (store : List UsdaStoredFood)
    (h : 2 ≤ (trimJs query).length) :
    searchUsdaLocal query limit store =
      (store.filter (searchMatches (strToLower query))).take limit := by
  rw [searchUsdaLocal, if_neg (by omega)]
  simpa using searchScan_eq (strToLower query) limit store [] (by simp)

/-- C8: the local substring search returns at most limit results; a query
whose trimmed length is below 2 returns the empty list immediately; the
scan short-circuits once limit matches are found (records after the
limit-th match cannot affect the result); and a store holding at least
limit matching records yields exactly limit results. -/
theorem searchUsdaLocal_bounds (query : String) (limit : ℕ)
    (store extra : List UsdaStoredFood) :
    (searchUsdaLocal query limit store).length ≤ limit ∧
    ((trimJs query).length < 2 → searchUsdaLocal query limit store = []) ∧
    (2 ≤ (trimJs query).length →
      limit ≤ (store.filter (searchMatches (strToLower query))).length →
      searchUsdaLocal query limit (store ++ extra) = searchUsdaLocal query limit store ∧
      (searchUsdaLocal query limit store).length = limit) := by
  refine ⟨?_, ?_, ?_⟩
  · by_cases hq : (trimJs query).length < 2
    · simp [searchUsdaLocal, hq]
    · rw [searchUsdaLocal_eq query limit store (by omega)]
      simp [List.length_take]
  · intro hq
    simp [searchUsdaLocal, hq]
  · intro hq hcount
    constructor
    · rw [searchUsdaLocal_eq query limit store hq, searchUsdaLocal_eq query limit (store ++ extra) hq]
      rw [List.filter_append]
      exact List.take_append_of_le_length hcount
    · rw [searchUsdaLocal_eq query limit store hq]
      simp [List.length_take]
      omega

/-- C8 witness: a 5-limit search against a store of 50 matching records
returns exactly 5 results. -/
theorem searchUsdaLocal_bounds_witness :
    (searchUsdaLocal "chicken" 5 chickenStore).length = 5 :=
  ((searchUsdaLocal_bounds "chicken" 5 chickenStore []).2.2 (by decide) (by decide)).2

/-- C10: counterexample — a failure to open the database is an underlying
storage error on which the metadata read does not resolve a fallback: the
rejection propagates to the caller. -/
theorem getUsdaMeta_rejects_on_open_error :
    getUsdaMeta (Except.error "open failed") (Except.ok none) = Except.error "open failed" := rfl

/-- C10 (amended): once the database opens successfully, every read
operation resolves (never rejects), and on a failed request it resolves the
defensive fallback — unsynced/zero metadata, the empty list, or a count of
0; a query shorter than 2 characters resolves the empty list before the
database is even opened.  Only a failure of openDb itself rejects. -/
theorem read_ops_resolve_after_open (query : String) (limit : ℕ)
    (store : List UsdaStoredFood) (mreq : Except String (Option UsdaMetaRow))
    (creq : Except String ℕ) (cursorError : Bool) :
    (∃ m, getUsdaMeta (Except.ok ()) mreq = Except.ok m) ∧
    (∀ e, mreq = Except.error e →
      getUsdaMeta (Except.ok ()) mreq = Except.ok ⟨false, 0, none⟩) ∧
    (∃ l, searchUsdaLocalRun query limit (Except.ok ()) store cursorError = Except.ok l) ∧
    (cursorError = true →
      searchUsdaLocalRun query limit (Except.ok ()) store cursorError = Except.ok []) ∧
    ((trimJs query).length < 2 → ∀ openDb,
      searchUsdaLocalRun query limit openDb store cursorError = Except.ok []) ∧
    (∃ n, getUsdaFoodCount (Except.ok ()) creq = Except.ok n) ∧
    (∀ e, creq = Except.error e → getUsdaFoodCount (Except.ok ()) creq = Except.ok 0) := by
  refine ⟨?_, ?_, ?_, ?_, ?_, ?_, ?_⟩
  · match mreq with
    | .error e => exact ⟨_, rfl⟩
    | .ok none => exact ⟨_, rfl⟩
    | .ok (some r) => exact ⟨_, rfl⟩
  · intro e he
    subst he
    rfl
  · by_cases hq : (trimJs query).length < 2
    · exact ⟨[], by simp [searchUsdaLocalRun, hq]⟩
    · exact ⟨_, by rw [searchUsdaLocalRun, if_neg hq]⟩
  · intro hc
    subst hc
    by_cases hq : (trimJs query).length < 2
    · simp [searchUsdaLocalRun, hq]
    · rw [searchUsdaLocalRun, if_neg hq]
      simp
  · intro hq openDb
    simp [searchUsdaLocalRun, hq]
  · match creq with
    | .error e => exact ⟨_, rfl⟩
    | .ok n => exact ⟨_, rfl⟩
  · intro e he
    subst he
    rfl

/-- C10 witness: concrete request failures resolve the three fallbacks. -/
theorem read_ops_resolve_after_open_witness :
    getUsdaMeta (Except.ok ()) (Except.error "request failed") = Except.ok ⟨false, 0, none⟩ ∧
    searchUsdaLocalRun "chicken" 5 (Except.ok ()) chickenStore true = Except.ok [] ∧
    getUsdaFoodCount (Except.ok ()) (Except.error "request failed") = Except.ok 0 :=
  ⟨(read_ops_resolve_after_open "chicken" 5 chickenStore (Except.error "request failed")
      (Except.error "request failed") true).2.1 "request failed" rfl,
    (read_ops_resolve_after_open "chicken" 5 chickenStore (Except.error "request failed")
      (Except.error "request failed") true).2.2.2.1 rfl,
    (read_ops_resolve_after_open "chicken" 5 chickenStore (Except.error "request failed")
      (Except.error "request failed") true).2.2.2.2.2.2 "request failed" rfl⟩

lemma checkS_cases (ab : Option ℕ) (tr : List SyncEvent) :
    checkS ab tr = Except.error (tr ++ [SyncEvent.check]) ∨
    checkS ab tr = Except.ok (tr ++ [SyncEvent.check]) := by
  rw [checkS]
  by_cases h : abortedAt ab tr.length = true
  · left; simp [h]
  · right; simp [h]

lemma fetchS_cases (ab : Option ℕ) (remote : Remote) (dt ps pn : ℕ) (tr : List SyncEvent) :
    fetchS ab remote dt ps pn tr = Except.error (tr ++ [SyncEvent.check]) ∨
    fetchS ab remote dt ps pn tr = Except.error (tr ++ [SyncEvent.check, SyncEvent.fetch dt ps pn]) ∨
    fetchS ab remote dt ps pn tr =
      Except.ok (tr ++ [SyncEvent.check, SyncEvent.fetch dt ps pn], remote dt ps pn) := by
  rcases checkS_cases ab tr with h | h
  · left
    simp [fetchS, h, Bind.bind, Except.bind]
  · rw [fetchS]
    simp only [h, Bind.bind, Except.bind]
    by_cases h2 : abortedAt ab (tr ++ [SyncEvent.check]).length = true
    · right; left; simp only [List.length_append, List.length_cons, List.length_nil] at h2; simp [h2]
    · right; right; simp only [List.length_append, List.length_cons, List.length_nil] at h2
      simp [h2]

lemma pageStep_cases (ab : Option ℕ) (remote : Remote) (dt p ts g : ℕ) (tr : List SyncEvent) :
    (∃ Δ, pageStep ab remote dt p ts g tr = Except.error (tr ++ Δ) ∧
      (Δ = [SyncEvent.check] ∨ Δ = [SyncEvent.check, SyncEvent.check] ∨
       Δ = [SyncEvent.check, SyncEvent.check, SyncEvent.fetch dt PAGE_SIZE p])) ∨
    pageStep ab remote dt p ts g tr =
      Except.ok (tr ++ [SyncEvent.check, SyncEvent.check, SyncEvent.fetch dt PAGE_SIZE p,
          SyncEvent.store ((remote dt PAGE_SIZE p).foods.map mapUsdaFood),
          SyncEvent.saveResume ⟨dt, p + 1, ts + (remote dt PAGE_SIZE p).foods.length, g⟩],
        ts + (remote dt PAGE_SIZE p).foods.length) := by
  rcases checkS_cases ab tr with h | h
  · left
    exact ⟨[SyncEvent.check], by simp [pageStep, h, Bind.bind, Except.bind], Or.inl rfl⟩
  · rcases fetchS_cases ab remote dt PAGE_SIZE p (tr ++ [SyncEvent.check]) with h2 | h2 | h2
    · left
      refine ⟨[SyncEvent.check, SyncEvent.check], ?_, Or.inr (Or.inl rfl)⟩
      simp [pageStep, h, h2, Bind.bind, Except.bind]
    · left
      refine ⟨[SyncEvent.check, SyncEvent.check, SyncEvent.fetch dt PAGE_SIZE p], ?_, Or.inr (Or.inr rfl)⟩
      simp [pageStep, h, h2, Bind.bind, Except.bind]
    · right
      simp [pageStep, h, h2, Bind.bind, Except.bind]

lemma savedTotals_append (a b : List SyncEvent) :
    savedTotals (a ++ b) = savedTotals a ++ savedTotals b := by
  simp [savedTotals, List.filterMap_append]

lemma pagesLoop_events (ab : Option ℕ) (remote : Remote) (dt g : ℕ) :
    ∀ (pages : List ℕ) (ts : ℕ) (tr : List SyncEvent), ∃ Δ,
      outTrace (pagesLoop ab remote dt g pages ts tr) = tr ++ Δ ∧
      (∀ e ∈ Δ, e = SyncEvent.check ∨
        (∃ p ∈ pages, e = SyncEvent.fetch dt PAGE_SIZE p) ∨
        (∃ p ∈ pages, e = SyncEvent.store ((remote dt PAGE_SIZE p).foods.map mapUsdaFood)) ∨
        (∃ p ∈ pages, ∃ t, ts ≤ t ∧ e = SyncEvent.saveResume ⟨dt, p + 1, t, g⟩)) ∧
      List.Chain' (· ≤ ·) (ts :: savedTotals Δ) ∧
      (∀ tr1 ts1, pagesLoop ab remote dt g pages ts tr = Except.ok (tr1, ts1) →
        ts ≤ ts1 ∧ ∀ x ∈ savedTotals Δ, x ≤ ts1) := by
  intro pages
  induction pages with
  | nil =>
    intro ts tr
    refine ⟨[], by simp [pagesLoop, outTrace], by simp, by simp [savedTotals], ?_⟩
    intro tr1 ts1 h
    simp only [pagesLoop, Except.ok.injEq, Prod.mk.injEq] at h
    simp [savedTotals, h.2]
  | cons p rest ih =>
    intro ts tr
    rcases pageStep_cases ab remote dt p ts g tr with ⟨Δ0, he, hshape⟩ | hok
    · refine ⟨Δ0, ?_, ?_, ?_, ?_⟩
      · simp [pagesLoop, he, Bind.bind, Except.bind, outTrace]
      · intro e he2
        rcases hshape with h | h | h <;> subst h <;> simp at he2
        · left; exact he2
        · left; exact he2
        · rcases he2 with h | h
          · left; exact h
          · right; left; exact ⟨p, by simp, h⟩
      · rcases hshape with h | h | h <;> subst h <;> simp [savedTotals]
      · intro tr1 ts1 h
        rw [pagesLoop] at h
        simp [he, Bind.bind, Except.bind] at h
    · have len := (remote dt PAGE_SIZE p).foods.length
      obtain ⟨Δ1, h1, h2, h3, h4⟩ :=
        ih (ts + (remote dt PAGE_SIZE p).foods.length)
          (tr ++ [SyncEvent.check, SyncEvent.check, SyncEvent.fetch dt PAGE_SIZE p,
            SyncEvent.store ((remote dt PAGE_SIZE p).foods.map mapUsdaFood),
            SyncEvent.saveResume ⟨dt, p + 1,
              ts + (remote dt PAGE_SIZE p).foods.length, g⟩])
      have hloop : pagesLoop ab remote dt g (p :: rest) ts tr =
          pagesLoop ab remote dt g rest
            (ts + (remote dt PAGE_SIZE p).foods.length)
            (tr ++ [SyncEvent.check, SyncEvent.check, SyncEvent.fetch dt PAGE_SIZE p,
              SyncEvent.store ((remote dt PAGE_SIZE p).foods.map mapUsdaFood),
              SyncEvent.saveResume ⟨dt, p + 1,
                ts + (remote dt PAGE_SIZE p).foods.length, g⟩]) := by
        rw [pagesLoop, hok]
        simp [Bind.bind, Except.bind]
      refine ⟨[SyncEvent.check, SyncEvent.check, SyncEvent.fetch dt PAGE_SIZE p,
          SyncEvent.store ((remote dt PAGE_SIZE p).foods.map mapUsdaFood),
          SyncEvent.saveResume ⟨dt, p + 1,
            ts + (remote dt PAGE_SIZE p).foods.length, g⟩] ++ Δ1, ?_, ?_, ?_, ?_⟩
      · rw [hloop, h1]
        simp
      · intro e he2
        rcases List.mem_append.mp he2 with h | h
        · simp at h
          rcases h with h | h | h | h
          · left; exact h
          · right; left; exact ⟨p, by simp, h⟩
          · right; right; left; exact ⟨p, by simp, h⟩
          · right; right; right
            exact ⟨p, by simp, ts + (remote dt PAGE_SIZE p).foods.length,
              by omega, h⟩
        · rcases h2 e h with h | ⟨q, hq, hh⟩ | ⟨q, hq, hh⟩ | ⟨q, hq, t, ht, hh⟩
          · left; exact h
          · right; left; exact ⟨q, by simp [hq], hh⟩
          · right; right; left; exact ⟨q, by simp [hq], hh⟩
          · right; right; right; exact ⟨q, by simp [hq], t, by omega, hh⟩
      · rw [savedTotals_append]
        have : savedTotals [SyncEvent.check, SyncEvent.check, SyncEvent.fetch dt PAGE_SIZE p,
            SyncEvent.store ((remote dt PAGE_SIZE p).foods.map mapUsdaFood),
            SyncEvent.saveResume ⟨dt, p + 1,
              ts + (remote dt PAGE_SIZE p).foods.length, g⟩] =
            [ts + (remote dt PAGE_SIZE p).foods.length] := by
          simp [savedTotals]
        rw [this]
        exact List.Chain'.cons (by omega) h3
      · intro tr1 ts1 h
        rw [hloop] at h
        obtain ⟨hle, hsav⟩ := h4 tr1 ts1 h
        refine ⟨by omega, ?_⟩
        intro x hx
        rw [savedTotals_append] at hx
        rcases List.mem_append.mp hx with h | h
        · simp [savedTotals] at h
          omega
        · exact hsav x h

lemma partitionStep_events (ab : Option ℕ) (remote : Remote) (startIdx startPage dt ts g : ℕ)
    (tr : List SyncEvent) :
    ∃ Δ, outTrace (partitionStep ab remote startIdx startPage dt ts g tr) = tr ++ Δ ∧
      (∀ e ∈ Δ, partEv remote startIdx startPage dt ts g e) ∧
      List.Chain' (· ≤ ·) (ts :: savedTotals Δ) ∧
      (∀ tr1 ts1, partitionStep ab remote startIdx startPage dt ts g tr = Except.ok (tr1, ts1) →
        ts ≤ ts1 ∧ ∀ x ∈ savedTotals Δ, x ≤ ts1) := by
  rcases fetchS_cases ab remote dt PAGE_SIZE 1 tr with hf | hf | hf
  · refine ⟨[SyncEvent.check], ?_, ?_, by simp [savedTotals], ?_⟩
    · simp [partitionStep, hf, Bind.bind, Except.bind, outTrace]
    · intro e he
      simp at he
      exact Or.inl he
    · intro tr1 ts1 h
      rw [partitionStep] at h
      simp [hf, Bind.bind, Except.bind] at h
  · refine ⟨[SyncEvent.check, SyncEvent.fetch dt PAGE_SIZE 1], ?_, ?_, by simp [savedTotals], ?_⟩
    · simp [partitionStep, hf, Bind.bind, Except.bind, outTrace]
    · intro e he
      simp at he
      rcases he with h | h
      · exact Or.inl h
      · exact Or.inr (Or.inl ⟨1, Or.inl rfl, h⟩)
    · intro tr1 ts1 h
      rw [partitionStep] at h
      simp [hf, Bind.bind, Except.bind] at h
  · by_cases hfp : (if dt = startIdx then startPage else 1) = 1
    · -- fresh partition: the probe page is stored with its checkpoint
      obtain ⟨Δ1, h1, h2, h3, h4⟩ := pagesLoop_events ab remote dt g
        (List.range' (max (if dt = startIdx then startPage else 1) 2)
          (totalPagesOf remote dt + 1 - max (if dt = startIdx then startPage else 1) 2))
        (ts + (remote dt PAGE_SIZE 1).foods.length)
        (tr ++ [SyncEvent.check, SyncEvent.fetch dt PAGE_SIZE 1,
          SyncEvent.store ((remote dt PAGE_SIZE 1).foods.map mapUsdaFood),
          SyncEvent.saveResume ⟨dt, 2, ts + (remote dt PAGE_SIZE 1).foods.length, g⟩])
      have hstep : partitionStep ab remote startIdx startPage dt ts g tr =
          pagesLoop ab remote dt g
            (List.range' (max (if dt = startIdx then startPage else 1) 2)
              (totalPagesOf remote dt + 1 - max (if dt = startIdx then startPage else 1) 2))
            (ts + (remote dt PAGE_SIZE 1).foods.length)
            (tr ++ [SyncEvent.check, SyncEvent.fetch dt PAGE_SIZE 1,
              SyncEvent.store ((remote dt PAGE_SIZE 1).foods.map mapUsdaFood),
              SyncEvent.saveResume ⟨dt, 2, ts + (remote dt PAGE_SIZE 1).foods.length, g⟩]) := by
        rw [partitionStep, hf]
        simp only [Bind.bind, Except.bind, hfp, if_pos, totalPagesOf]
        simp
      refine ⟨[SyncEvent.check, SyncEvent.fetch dt PAGE_SIZE 1,
          SyncEvent.store ((remote dt PAGE_SIZE 1).foods.map mapUsdaFood),
          SyncEvent.saveResume ⟨dt, 2, ts + (remote dt PAGE_SIZE 1).foods.length, g⟩] ++ Δ1,
        ?_, ?_, ?_, ?_⟩
      · rw [hstep, h1]
        simp
      · intro e he
        simp only [partEv]
        rcases List.mem_append.mp he with h | h
        · simp at h
          rcases h with h | h | h | h
          · exact Or.inl h
          · exact Or.inr (Or.inl ⟨1, Or.inl rfl, h⟩)
          · exact Or.inr (Or.inr (Or.inl ⟨1, Or.inl ⟨rfl, hfp⟩, h⟩))
          · exact Or.inr (Or.inr (Or.inr
              ⟨2, ts + (remote dt PAGE_SIZE 1).foods.length, by omega, by omega, h⟩))
        · rcases h2 e h with h | ⟨p, hp, hh⟩ | ⟨p, hp, hh⟩ | ⟨p, hp, t, ht, hh⟩
          · exact Or.inl h
          · rw [List.mem_range'_1] at hp
            exact Or.inr (Or.inl ⟨p, Or.inr ⟨by omega, by omega⟩, hh⟩)
          · rw [List.mem_range'_1] at hp
            exact Or.inr (Or.inr (Or.inl ⟨p, Or.inr ⟨by omega, by omega⟩, hh⟩))
          · rw [List.mem_range'_1] at hp
            exact Or.inr (Or.inr (Or.inr ⟨p + 1, t, by omega, by omega, hh⟩))
      · rw [savedTotals_append]
        have hsv : savedTotals [SyncEvent.check, SyncEvent.fetch dt PAGE_SIZE 1,
            SyncEvent.store ((remote dt PAGE_SIZE 1).foods.map mapUsdaFood),
            SyncEvent.saveResume ⟨dt, 2, ts + (remote dt PAGE_SIZE 1).foods.length, g⟩] =
            [ts + (remote dt PAGE_SIZE 1).foods.length] := by simp [savedTotals]
        rw [hsv]
        exact List.Chain'.cons (by omega) h3
      · intro tr1 ts1 h
        rw [hstep] at h
        obtain ⟨hle, hsav⟩ := h4 tr1 ts1 h
        refine ⟨by omega, ?_⟩
        intro x hx
        rw [savedTotals_append] at hx
        rcases List.mem_append.mp hx with h | h
        · simp [savedTotals] at h
          omega
        · exact hsav x h
    · -- resumed partition: the probe records are not stored
      obtain ⟨Δ1, h1, h2, h3, h4⟩ := pagesLoop_events ab remote dt g
        (List.range' (max (if dt = startIdx then startPage else 1) 2)
          (totalPagesOf remote dt + 1 - max (if dt = startIdx then startPage else 1) 2))
        ts (tr ++ [SyncEvent.check, SyncEvent.fetch dt PAGE_SIZE 1])
      have hstep : partitionStep ab remote startIdx startPage dt ts g tr =
          pagesLoop ab remote dt g
            (List.range' (max (if dt = startIdx then startPage else 1) 2)
              (totalPagesOf remote dt + 1 - max (if dt = startIdx then startPage else 1) 2))
            ts (tr ++ [SyncEvent.check, SyncEvent.fetch dt PAGE_SIZE 1]) := by
        rw [partitionStep, hf]
        simp only [Bind.bind, Except.bind, hfp, if_neg, totalPagesOf]
        simp
      refine ⟨[SyncEvent.check, SyncEvent.fetch dt PAGE_SIZE 1] ++ Δ1, ?_, ?_, ?_, ?_⟩
      · rw [hstep, h1]
        simp
      · intro e he
        simp only [partEv]
        rcases List.mem_append.mp he with h | h
        · simp at h
          rcases h with h | h
          · exact Or.inl h
          · exact Or.inr (Or.inl ⟨1, Or.inl rfl, h⟩)
        · rcases h2 e h with h | ⟨p, hp, hh⟩ | ⟨p, hp, hh⟩ | ⟨p, hp, t, ht, hh⟩
          · exact Or.inl h
          · rw [List.mem_range'_1] at hp
            exact Or.inr (Or.inl ⟨p, Or.inr ⟨by omega, by omega⟩, hh⟩)
          · rw [List.mem_range'_1] at hp
            exact Or.inr (Or.inr (Or.inl ⟨p, Or.inr ⟨by omega, by omega⟩, hh⟩))
          · rw [List.mem_range'_1] at hp
            exact Or.inr (Or.inr (Or.inr ⟨p + 1, t, by omega, by omega, hh⟩))
      · rw [savedTotals_append]
        have hsv : savedTotals [SyncEvent.check, SyncEvent.fetch dt PAGE_SIZE 1] = [] := by
          simp [savedTotals]
        rw [hsv]
        simpa using h3
      · intro tr1 ts1 h
        rw [hstep] at h
        obtain ⟨hle, hsav⟩ := h4 tr1 ts1 h
        refine ⟨hle, ?_⟩
        intro x hx
        rw [savedTotals_append] at hx
        rcases List.mem_append.mp hx with h | h
        · simp [savedTotals] at h
        · exact hsav x h

lemma partEv_mono (remote : Remote) (startIdx startPage dt ts ts2 g : ℕ) (e : SyncEvent)
    (hts : ts ≤ ts2) (h : partEv remote startIdx startPage dt ts2 g e) :
    partEv remote startIdx startPage dt ts g e := by
  rcases h with h | h | h | ⟨q, t, ht, hq, he⟩
  · exact Or.inl h
  · exact Or.inr (Or.inl h)
  · exact Or.inr (Or.inr (Or.inl h))
  · exact Or.inr (Or.inr (Or.inr ⟨q, t, by omega, hq, he⟩))

lemma partitionsLoop_events (ab : Option ℕ) (remote : Remote) (startIdx startPage g : ℕ) :
    ∀ (dts : List ℕ) (ts : ℕ) (tr : List SyncEvent), ∃ Δ,
      outTrace (partitionsLoop ab remote startIdx startPage g dts ts tr) = tr ++ Δ ∧
      (∀ e ∈ Δ, ∃ dt ∈ dts, partEv remote startIdx startPage dt ts g e) ∧
      List.Chain' (· ≤ ·) (ts :: savedTotals Δ) ∧
      (∀ tr1 ts1, partitionsLoop ab remote startIdx startPage g dts ts tr = Except.ok (tr1, ts1) →
        ts ≤ ts1 ∧ ∀ x ∈ savedTotals Δ, x ≤ ts1) := by
  intro dts
  induction dts with
  | nil =>
    intro ts tr
    refine ⟨[], by simp [partitionsLoop, outTrace], by simp, by simp [savedTotals], ?_⟩
    intro tr1 ts1 h
    simp only [partitionsLoop, Except.ok.injEq, Prod.mk.injEq] at h
    simp [savedTotals, h.2]
  | cons dt rest ih =>
    intro ts tr
    obtain ⟨Δ0, h1, h2, h3, h4⟩ := partitionStep_events ab remote startIdx startPage dt ts g tr
    cases hps : partitionStep ab remote startIdx startPage dt ts g tr with
    | error tr0 =>
      rw [hps] at h1
      refine ⟨Δ0, ?_, ?_, h3, ?_⟩
      · rw [partitionsLoop, hps]
        simp only [Bind.bind, Except.bind, outTrace]
        simpa [outTrace] using h1
      · intro e he
        exact ⟨dt, by simp, h2 e he⟩
      · intro tr1 ts1 h
        rw [partitionsLoop, hps] at h
        simp [Bind.bind, Except.bind] at h
    | ok res =>
      obtain ⟨tr1, ts1⟩ := res
      rw [hps] at h1
      simp only [outTrace] at h1
      obtain ⟨hle, hsav⟩ := h4 tr1 ts1 hps
      obtain ⟨Δ1, g1, g2, g3, g4⟩ := ih ts1 tr1
      have hloop : partitionsLoop ab remote startIdx startPage g (dt :: rest) ts tr =
          partitionsLoop ab remote startIdx startPage g rest ts1 tr1 := by
        rw [partitionsLoop, hps]
        simp [Bind.bind, Except.bind]
      refine ⟨Δ0 ++ Δ1, ?_, ?_, ?_, ?_⟩
      · rw [hloop, g1, h1]
        simp
      · intro e he
        rcases List.mem_append.mp he with h | h
        · exact ⟨dt, by simp, h2 e h⟩
        · obtain ⟨dt2, hdt2, hp⟩ := g2 e h
          exact ⟨dt2, by simp [hdt2], partEv_mono remote startIdx startPage dt2 ts ts1 g e hle hp⟩
      · rw [savedTotals_append]
        rw [show ts :: (savedTotals Δ0 ++ savedTotals Δ1) =
          (ts :: savedTotals Δ0) ++ savedTotals Δ1 from rfl]
        rw [List.chain'_append]
        refine ⟨h3, (List.chain'_cons'.mp g3).2, ?_⟩
        intro x hx y hy
        have hx2 : x ∈ ts :: savedTotals Δ0 := List.mem_of_mem_getLast? hx
        have hxle : x ≤ ts1 := by
          rcases List.mem_cons.mp hx2 with h | h
          · omega
          · exact hsav x h
        have hy2 : ts1 ≤ y := (List.chain'_cons'.mp g3).1 y hy
        omega
      · intro tr2 ts2 h
        rw [hloop] at h
        obtain ⟨hle2, hsav2⟩ := g4 tr2 ts2 h
        refine ⟨by omega, ?_⟩
        intro x hx
        rw [savedTotals_append] at hx
        rcases List.mem_append.mp hx with h | h
        · exact le_trans (hsav x h) hle2
        · exact hsav2 x h

lemma countProbes_events (ab : Option ℕ) (remote : Remote) :
    ∀ (dts : List ℕ) (g : ℕ) (tr : List SyncEvent), ∃ Δ,
      outTrace (countProbes ab remote dts g tr) = tr ++ Δ ∧
      (∀ e ∈ Δ, e = SyncEvent.check ∨ ∃ dt ∈ dts, e = SyncEvent.fetch dt 1 1) := by
  intro dts
  induction dts with
  | nil =>
    intro g tr
    exact ⟨[], by simp [countProbes, outTrace], by simp⟩
  | cons dt rest ih =>
    intro g tr
    rcases fetchS_cases ab remote dt 1 1 tr with hf | hf | hf
    · refine ⟨[SyncEvent.check], ?_, ?_⟩
      · simp [countProbes, hf, Bind.bind, Except.bind, outTrace]
      · intro e he
        simp at he
        exact Or.inl he
    · refine ⟨[SyncEvent.check, SyncEvent.fetch dt 1 1], ?_, ?_⟩
      · simp [countProbes, hf, Bind.bind, Except.bind, outTrace]
      · intro e he
        simp at he
        rcases he with h | h
        · exact Or.inl h
        · exact Or.inr ⟨dt, by simp, h⟩
    · obtain ⟨Δ1, h1, h2⟩ := ih (g + (remote dt 1 1).totalHits)
        (tr ++ [SyncEvent.check, SyncEvent.fetch dt 1 1])
      have hloop : countProbes ab remote (dt :: rest) g tr =
          countProbes ab remote rest (g + (remote dt 1 1).totalHits)
            (tr ++ [SyncEvent.check, SyncEvent.fetch dt 1 1]) := by
        rw [countProbes, hf]
        simp [Bind.bind, Except.bind]
      refine ⟨[SyncEvent.check, SyncEvent.fetch dt 1 1] ++ Δ1, ?_, ?_⟩
      · rw [hloop, h1]
        simp
      · intro e he
        rcases List.mem_append.mp he with h | h
        · simp at h
          rcases h with h | h
          · exact Or.inl h
          · exact Or.inr ⟨dt, by simp, h⟩
        · rcases h2 e h with h | ⟨dt2, hdt2, hh⟩
          · exact Or.inl h
          · exact Or.inr ⟨dt2, by simp [hdt2], hh⟩

lemma pageStep_none (remote : Remote) (dt p ts g : ℕ) (tr : List SyncEvent) :
    pageStep none remote dt p ts g tr = Except.ok
      (tr ++ [SyncEvent.check, SyncEvent.check, SyncEvent.fetch dt PAGE_SIZE p,
        SyncEvent.store ((remote dt PAGE_SIZE p).foods.map mapUsdaFood),
        SyncEvent.saveResume ⟨dt, p + 1,
          ts + ((remote dt PAGE_SIZE p).foods.map mapUsdaFood).length, g⟩],
      ts + ((remote dt PAGE_SIZE p).foods.map mapUsdaFood).length) := by
  simp [pageStep, checkS, fetchS, abortedAt, Bind.bind, Except.bind]

lemma pagesLoop_none_fetch (remote : Remote) (dt g : ℕ) :
    ∀ (pages : List ℕ) (ts : ℕ) (tr : List SyncEvent) (p : ℕ), p ∈ pages →
      SyncEvent.fetch dt PAGE_SIZE p ∈ outTrace (pagesLoop none remote dt g pages ts tr) := by
  intro pages
  induction pages with
  | nil =>
    intro ts tr p hp
    simp at hp
  | cons q rest ih =>
    intro ts tr p hp
    have hloop : pagesLoop none remote dt g (q :: rest) ts tr =
        pagesLoop none remote dt g rest
          (ts + ((remote dt PAGE_SIZE q).foods.map mapUsdaFood).length)
          (tr ++ [SyncEvent.check, SyncEvent.check, SyncEvent.fetch dt PAGE_SIZE q,
            SyncEvent.store ((remote dt PAGE_SIZE q).foods.map mapUsdaFood),
            SyncEvent.saveResume ⟨dt, q + 1,
              ts + ((remote dt PAGE_SIZE q).foods.map mapUsdaFood).length, g⟩]) := by
      rw [pagesLoop, pageStep_none]
      simp [Bind.bind, Except.bind]
    rcases List.mem_cons.mp hp with h | h
    · subst h
      obtain ⟨Δ, hΔ, h2, h3, h4⟩ := pagesLoop_events none remote dt g rest
        (ts + ((remote dt PAGE_SIZE p).foods.map mapUsdaFood).length)
        (tr ++ [SyncEvent.check, SyncEvent.check, SyncEvent.fetch dt PAGE_SIZE p,
          SyncEvent.store ((remote dt PAGE_SIZE p).foods.map mapUsdaFood),
          SyncEvent.saveResume ⟨dt, p + 1,
            ts + ((remote dt PAGE_SIZE p).foods.map mapUsdaFood).length, g⟩])
      rw [hloop, hΔ]
      simp
    · rw [hloop]
      exact ih _ _ p h

lemma partitionsLoop_head_mem (ab : Option ℕ) (remote : Remote) (startIdx startPage g dt : ℕ)
    (rest : List ℕ) (ts : ℕ) (tr : List SyncEvent) (e : SyncEvent)
    (he : e ∈ outTrace (partitionStep ab remote startIdx startPage dt ts g tr)) :
    e ∈ outTrace (partitionsLoop ab remote startIdx startPage g (dt :: rest) ts tr) := by
  cases hps : partitionStep ab remote startIdx startPage dt ts g tr with
  | error tr0 =>
    rw [hps] at he
    rw [partitionsLoop, hps]
    simpa [Bind.bind, Except.bind, outTrace] using he
  | ok res =>
    obtain ⟨tr1, ts1⟩ := res
    rw [hps] at he
    simp only [outTrace] at he
    have hloop : partitionsLoop ab remote startIdx startPage g (dt :: rest) ts tr =
        partitionsLoop ab remote startIdx startPage g rest ts1 tr1 := by
      rw [partitionsLoop, hps]
      simp [Bind.bind, Except.bind]
    obtain ⟨Δ, hΔ, h2, h3, h4⟩ := partitionsLoop_events ab remote startIdx startPage g rest ts1 tr1
    rw [hloop, hΔ]
    exact List.mem_append.mpr (Or.inl he)

lemma partitionStep_resumed_eq (remote : Remote) (g ts : ℕ) (tr : List SyncEvent) :
    partitionStep none remote 1 5 1 ts g tr =
      pagesLoop none remote 1 g (List.range' 5 (totalPagesOf remote 1 + 1 - 5)) ts
        (tr ++ [SyncEvent.check, SyncEvent.fetch 1 PAGE_SIZE 1]) := by
  rw [partitionStep]
  simp [fetchS, checkS, abortedAt, Bind.bind, Except.bind, totalPagesOf]

/-- C2 (amended): with a checkpoint at partition 1, page 5, 900 records
stored and a cached positive grand total, a restarted run never requests
any page of partition 0; its only request below page 5 in partition 1 is
the single page-1 probe (full page size) used to recompute the page count,
whose records are not stored; every stored batch comes from a partition-1
page at least 5 or from partition 2; the checkpoint totals never decrease,
starting from 900, the final metadata count is at least 900, and every
partition-1 data page from 5 to the page count is fetched. -/
theorem resume_checkpoint_behavior (remote : Remote) (g : ℕ) (hg : 0 < g) :
    (∀ ps pn, SyncEvent.fetch 0 ps pn ∉ syncTrace remote (some ⟨1, 5, 900, g⟩) none) ∧
    (∀ ps pn, SyncEvent.fetch 1 ps pn ∈ syncTrace remote (some ⟨1, 5, 900, g⟩) none →
      ps = PAGE_SIZE ∧ (pn = 1 ∨ 5 ≤ pn)) ∧
    (∀ b, SyncEvent.store b ∈ syncTrace remote (some ⟨1, 5, 900, g⟩) none →
      (∃ p, 5 ≤ p ∧ b = (remote 1 PAGE_SIZE p).foods.map mapUsdaFood) ∨
      (∃ p, 1 ≤ p ∧ b = (remote 2 PAGE_SIZE p).foods.map mapUsdaFood)) ∧
    List.Chain' (· ≤ ·) (900 :: savedTotals (syncTrace remote (some ⟨1, 5, 900, g⟩) none)) ∧
    (∀ n, SyncEvent.updateMeta n ∈ syncTrace remote (some ⟨1, 5, 900, g⟩) none → 900 ≤ n) ∧
    (∀ p, 5 ≤ p → p ≤ totalPagesOf remote 1 →
      SyncEvent.fetch 1 PAGE_SIZE p ∈ syncTrace remote (some ⟨1, 5, 900, g⟩) none) := by
  obtain ⟨Δ, hΔ, hev, hch, hok⟩ := partitionsLoop_events none remote 1 5 g [1, 2] 900 []
  have hne : g ≠ 0 := by omega
  have hdo : syncUsdaDatabase remote (some ⟨1, 5, 900, g⟩) none =
      (do
        let res ← partitionsLoop none remote 1 5 g [1, 2] 900 []
        Except.ok (res.1 ++ [SyncEvent.clearResume, SyncEvent.updateMeta res.2])) := by
    rw [syncUsdaDatabase]
    simp [hne, Bind.bind, Except.bind, pure, Except.pure, dataTypesCount, List.range']
  have hcase :
      (syncTrace remote (some ⟨1, 5, 900, g⟩) none = Δ) ∨
      (∃ ts1, syncTrace remote (some ⟨1, 5, 900, g⟩) none =
          Δ ++ [SyncEvent.clearResume, SyncEvent.updateMeta ts1] ∧ 900 ≤ ts1) := by
    cases hpl : partitionsLoop none remote 1 5 g [1, 2] 900 [] with
    | error tr0 =>
      left
      rw [hpl] at hΔ
      simp only [outTrace, List.nil_append] at hΔ
      rw [syncTrace, hdo, hpl]
      simpa [Bind.bind, Except.bind] using hΔ
    | ok res =>
      obtain ⟨tr1, ts1⟩ := res
      right
      rw [hpl] at hΔ
      simp only [outTrace, List.nil_append] at hΔ
      refine ⟨ts1, ?_, (hok tr1 ts1 hpl).1⟩
      rw [syncTrace, hdo, hpl]
      simp [Bind.bind, Except.bind, hΔ]
  have hmemΔ : ∀ e, e ∈ syncTrace remote (some ⟨1, 5, 900, g⟩) none →
      (∃ dt ∈ ([1, 2] : List ℕ), partEv remote 1 5 dt 900 g e) ∨
      e = SyncEvent.clearResume ∨ (∃ ts1, 900 ≤ ts1 ∧ e = SyncEvent.updateMeta ts1) := by
    intro e he
    rcases hcase with h | ⟨ts1, h, hts1⟩
    · rw [h] at he
      exact Or.inl (hev e he)
    · rw [h] at he
      rcases List.mem_append.mp he with h2 | h2
      · exact Or.inl (hev e h2)
      · simp at h2
        rcases h2 with h2 | h2
        · exact Or.inr (Or.inl h2)
        · exact Or.inr (Or.inr ⟨ts1, hts1, h2⟩)
  refine ⟨?_, ?_, ?_, ?_, ?_, ?_⟩
  · -- no request ever targets partition 0
    intro ps pn hmem
    rcases hmemΔ _ hmem with ⟨dt, hdt, hp⟩ | h | ⟨ts1, _, h⟩
    · simp at hdt
      rcases hp with h | ⟨p, hp, h⟩ | ⟨p, hp, h⟩ | ⟨q, t, ht, hq, h⟩ <;> simp at h
      omega
    · simp at h
    · simp at h
  · -- partition-1 requests are the probe of page 1 or data pages from 5 up
    intro ps pn hmem
    rcases hmemΔ _ hmem with ⟨dt, hdt, hp⟩ | h | ⟨ts1, _, h⟩
    · simp at hdt
      rcases hp with h | ⟨p, hp, h⟩ | ⟨p, hp, h⟩ | ⟨q, t, ht, hq, h⟩ <;> simp at h
      obtain ⟨h1, h2, h3⟩ := h
      rcases hdt with hdt | hdt <;> subst hdt
      · subst h2 h3
        rcases hp with hp | ⟨hp1, hp2⟩
        · exact ⟨rfl, Or.inl hp⟩
        · simp at hp1
          exact ⟨rfl, Or.inr (by omega)⟩
      · omega
    · simp at h
    · simp at h
  · -- stored batches come from partition-1 pages from 5 up or partition 2
    intro b hmem
    rcases hmemΔ _ hmem with ⟨dt, hdt, hp⟩ | h | ⟨ts1, _, h⟩
    · simp at hdt
      rcases hp with h | ⟨p, hp, h⟩ | ⟨p, hp, h⟩ | ⟨q, t, ht, hq, h⟩ <;> simp at h
      rcases hdt with hdt | hdt <;> subst hdt
      · rcases hp with ⟨hp1, hp2⟩ | ⟨hp1, hp2⟩
        · simp at hp2
        · simp at hp1
          exact Or.inl ⟨p, by omega, h⟩
      · rcases hp with ⟨hp1, hp2⟩ | ⟨hp1, hp2⟩
        · exact Or.inr ⟨p, by omega, h⟩
        · exact Or.inr ⟨p, by omega, h⟩
    · simp at h
    · simp at h
  · -- the stored-so-far totals never decrease, starting from 900
    rcases hcase with h | ⟨ts1, h, hts1⟩
    · rw [h]
      exact hch
    · rw [h, savedTotals_append]
      have : savedTotals [SyncEvent.clearResume, SyncEvent.updateMeta ts1] = [] := by
        simp [savedTotals]
      rw [this, List.append_nil]
      exact hch
  · -- the final metadata count is at least the checkpoint total
    intro n hmem
    rcases hmemΔ _ hmem with ⟨dt, hdt, hp⟩ | h | ⟨ts1, hts1, h⟩
    · rcases hp with h | ⟨p, hp, h⟩ | ⟨p, hp, h⟩ | ⟨q, t, ht, hq, h⟩ <;> simp at h
    · simp at h
    · simp at h
      omega
  · -- every data page from 5 to the page count is fetched
    intro p hp5 hpT
    have hfet : SyncEvent.fetch 1 PAGE_SIZE p ∈
        outTrace (partitionStep none remote 1 5 1 900 g []) := by
      rw [partitionStep_resumed_eq]
      exact pagesLoop_none_fetch remote 1 g _ 900 _ p (by rw [List.mem_range'_1]; omega)
    have hloopmem := partitionsLoop_head_mem none remote 1 5 g 1 [2] 900 [] _ hfet
    rcases hcase with h | ⟨ts1, h, hts1⟩
    · rw [h]
      rw [hΔ] at hloopmem
      simpa using hloopmem
    · rw [h]
      rw [hΔ] at hloopmem
      simp at hloopmem
      exact List.mem_append.mpr (Or.inl hloopmem)

lemma mem_upsert (st : List UsdaStoredFood) (f r : UsdaStoredFood)
    (h : r ∈ CalTrack.UsdaDb.upsert st f) : r ∈ st ∨ r = f := by
  rw [CalTrack.UsdaDb.upsert] at h
  by_cases ha : st.any (fun g => g.fdcId == f.fdcId) = true
  · rw [if_pos ha] at h
    obtain ⟨g, hg, hr⟩ := List.mem_map.mp h
    by_cases he : (g.fdcId == f.fdcId) = true
    · rw [if_pos he] at hr
      exact Or.inr hr.symm
    · rw [if_neg he] at hr
      exact Or.inl (hr ▸ hg)
  · rw [if_neg ha] at h
    rcases List.mem_append.mp h with h | h
    · exact Or.inl h
    · simp at h
      exact Or.inr h

lemma mem_storeUsdaFoods :
    ∀ (b st : List UsdaStoredFood) (r : UsdaStoredFood),
      r ∈ CalTrack.UsdaDb.storeUsdaFoods st b → r ∈ st ∨ r ∈ b := by
  intro b
  induction b with
  | nil =>
    intro st r h
    exact Or.inl h
  | cons f rest ih =>
    intro st r h
    rw [CalTrack.UsdaDb.storeUsdaFoods, List.foldl_cons] at h
    rcases ih (CalTrack.UsdaDb.upsert st f) r h with h2 | h2
    · rcases mem_upsert st f r h2 with h3 | h3
      · exact Or.inl h3
      · exact Or.inr (by simp [h3])
    · exact Or.inr (by simp [h2])

lemma mem_applyEvents :
    ∀ (evs : List SyncEvent) (st : List UsdaStoredFood) (r : UsdaStoredFood),
      r ∈ applyEvents evs st → r ∈ st ∨ ∃ b, SyncEvent.store b ∈ evs ∧ r ∈ b := by
  intro evs
  induction evs with
  | nil =>
    intro st r h
    exact Or.inl h
  | cons e rest ih =>
    intro st r h
    rw [applyEvents, List.foldl_cons] at h
    cases e with
    | store b =>
      rcases ih _ r h with h2 | ⟨b2, hb2, hr2⟩
      · rcases mem_storeUsdaFoods b st r h2 with h3 | h3
        · exact Or.inl h3
        · exact Or.inr ⟨b, by simp, h3⟩
      · exact Or.inr ⟨b2, by simp [hb2], hr2⟩
    | check => exact (ih _ r h).imp id (fun ⟨b2, hb2, hr2⟩ => ⟨b2, by simp [hb2], hr2⟩)
    | fetch dt ps pn => exact (ih _ r h).imp id (fun ⟨b2, hb2, hr2⟩ => ⟨b2, by simp [hb2], hr2⟩)
    | saveResume cp => exact (ih _ r h).imp id (fun ⟨b2, hb2, hr2⟩ => ⟨b2, by simp [hb2], hr2⟩)
    | clearResume => exact (ih _ r h).imp id (fun ⟨b2, hb2, hr2⟩ => ⟨b2, by simp [hb2], hr2⟩)
    | updateMeta n => exact (ih _ r h).imp id (fun ⟨b2, hb2, hr2⟩ => ⟨b2, by simp [hb2], hr2⟩)

lemma partEv_store (remote : Remote) (sI sP dt ts g : ℕ) (b : List UsdaStoredFood)
    (h : partEv remote sI sP dt ts g (SyncEvent.store b)) :
    ∃ foods : List UsdaSearchFood, b = foods.map mapUsdaFood := by
  rcases h with h | ⟨p, hp, h⟩ | ⟨p, hp, h⟩ | ⟨q, t, ht, hq, h⟩ <;> simp at h
  exact ⟨(remote dt PAGE_SIZE p).foods, h⟩

lemma syncTrace_store_shape (remote : Remote) (resume : Option ResumeState) (ab : Option ℕ) :
    ∀ b, SyncEvent.store b ∈ syncTrace remote resume ab →
      ∃ foods : List UsdaSearchFood, b = foods.map mapUsdaFood := by
  intro b hb
  have hparts : ∀ (sI sP g ts : ℕ) (tr : List SyncEvent),
      (∀ b2, SyncEvent.store b2 ∈ tr → ∃ foods : List UsdaSearchFood, b2 = foods.map mapUsdaFood) →
      SyncEvent.store b ∈ outTrace
        (partitionsLoop ab remote sI sP g (List.range' sI (dataTypesCount - sI)) ts tr) →
      ∃ foods : List UsdaSearchFood, b = foods.map mapUsdaFood := by
    intro sI sP g ts tr htr hmem
    obtain ⟨Δ, hΔ, hev, hch, hok⟩ :=
      partitionsLoop_events ab remote sI sP g (List.range' sI (dataTypesCount - sI)) ts tr
    rw [hΔ] at hmem
    rcases List.mem_append.mp hmem with h | h
    · exact htr b h
    · obtain ⟨dt, hdt, hp⟩ := hev _ h
      exact partEv_store remote sI sP dt ts g b hp
  have hmain : ∀ (sI sP ts g0 : ℕ),
      syncUsdaDatabase remote resume ab =
        (do
          let init ←
            if g0 = 0 then countProbes ab remote [0, 1, 2] 0 []
            else pure ([], g0)
          let res ← partitionsLoop ab remote sI sP init.2
            (List.range' sI (dataTypesCount - sI)) ts init.1
          Except.ok (res.1 ++ [SyncEvent.clearResume, SyncEvent.updateMeta res.2])) →
      ∃ foods : List UsdaSearchFood, b = foods.map mapUsdaFood := by
    intro sI sP ts g0 hdo
    rw [syncTrace, hdo] at hb
    by_cases hg : g0 = 0
    · simp only [hg, if_pos] at hb
      cases hcp : countProbes ab remote [0, 1, 2] 0 [] with
      | error trc =>
        rw [hcp] at hb
        simp only [Bind.bind, Except.bind] at hb
        obtain ⟨Δc, hΔc, hevc⟩ := countProbes_events ab remote [0, 1, 2] 0 []
        rw [hcp] at hΔc
        simp only [outTrace, List.nil_append] at hΔc
        rw [hΔc] at hb
        rcases hevc _ hb with h | ⟨dt, _, h⟩ <;> simp at h
      | ok init =>
        obtain ⟨trc, gc⟩ := init
        obtain ⟨Δc, hΔc, hevc⟩ := countProbes_events ab remote [0, 1, 2] 0 []
        rw [hcp] at hΔc
        simp only [outTrace, List.nil_append] at hΔc
        have htrc : ∀ b2, SyncEvent.store b2 ∈ trc →
            ∃ foods : List UsdaSearchFood, b2 = foods.map mapUsdaFood := by
          intro b2 h2
          rw [hΔc] at h2
          rcases hevc _ h2 with h | ⟨dt, _, h⟩ <;> simp at h
        rw [hcp] at hb
        simp only [Bind.bind, Except.bind] at hb
        cases hpl : partitionsLoop ab remote sI sP gc (List.range' sI (dataTypesCount - sI)) ts trc with
        | error tr0 =>
          rw [hpl] at hb
          simp only at hb
          refine hparts sI sP gc ts trc htrc ?_
          rw [hpl]
          exact hb
        | ok res =>
          obtain ⟨tr1, ts1⟩ := res
          rw [hpl] at hb
          simp only at hb
          rcases List.mem_append.mp hb with h | h
          · refine hparts sI sP gc ts trc htrc ?_
            rw [hpl]
            exact h
          · simp at h
    · simp only [hg, if_neg, if_false] at hb
      simp only [Bind.bind, Except.bind, pure, Except.pure] at hb
      cases hpl : partitionsLoop ab remote sI sP g0 (List.range' sI (dataTypesCount - sI)) ts [] with
      | error tr0 =>
        rw [hpl] at hb
        simp only at hb
        refine hparts sI sP g0 ts [] (by simp) ?_
        rw [hpl]
        exact hb
      | ok res =>
        obtain ⟨tr1, ts1⟩ := res
        rw [hpl] at hb
        simp only at hb
        rcases List.mem_append.mp hb with h | h
        · refine hparts sI sP g0 ts [] (by simp) ?_
          rw [hpl]
          exact h
        · simp at h
  cases resume with
  | none => exact hmain 0 1 0 0 (by rw [syncUsdaDatabase])
  | some cp =>
    exact hmain cp.dataTypeIndex cp.pageNumber cp.totalStored cp.grandTotal (by rw [syncUsdaDatabase])

/-- C9 (amended): every record the online sync writes to the store is the
image of a raw record under the record mapper, and its stored search key
equals the lowercase form of the raw description (not of the display
name). -/
theorem searchKey_is_lowercase_of_description (remote : Remote) (resume : Option ResumeState)
    (r : UsdaStoredFood) (hr : r ∈ syncStore remote resume) :
    ∃ raw : UsdaSearchFood, r = mapUsdaFood raw ∧
      r.nameLower = some (strToLower raw.description) := by
  rw [syncStore] at hr
  rcases mem_applyEvents _ [] r hr with h | ⟨b, hb, hrb⟩
  · simp at h
  · obtain ⟨foods, hf⟩ := syncTrace_store_shape remote resume none b hb
    subst hf
    obtain ⟨raw, hraw, hr2⟩ := List.mem_map.mp hrb
    refine ⟨raw, hr2.symm, ?_⟩
    rw [← hr2]
    rfl

/-- C9: counterexample — for the raw description "CHEESE, CHEDDAR" the
stored search key is "cheese, cheddar" while the lowercased display name is
"cheese cheddar" (title-casing collapses the comma), and the record is
written by a sync. -/
theorem searchKey_not_lowercased_name :
    (mapUsdaFood commaFood).nameLower ≠ some (strToLower (mapUsdaFood commaFood).name) ∧
    mapUsdaFood commaFood ∈ syncStore (singlePageRemote commaFood) none := by
  constructor
  · decide
  · rw [show syncStore (singlePageRemote commaFood) none = [mapUsdaFood commaFood] from rfl]
    simp

/-- C9 witness: the record of a concrete sync run, with its search key
equal to the lowercase of its raw description. -/
theorem searchKey_is_lowercase_of_description_witness :
    ∃ raw : UsdaSearchFood, mapUsdaFood commaFood = mapUsdaFood raw ∧
      (mapUsdaFood commaFood).nameLower = some (strToLower raw.description) :=
  searchKey_is_lowercase_of_description (singlePageRemote commaFood) none (mapUsdaFood commaFood)
    (by rw [show syncStore (singlePageRemote commaFood) none = [mapUsdaFood commaFood] from rfl]
        simp)

lemma invTrace_nil : invTrace [] := by
  refine ⟨by simp, by simp, by simp⟩

lemma inv_append (tr Δ : List SyncEvent) (h1 : invTrace tr) (h2 : List.Chain' stepOK Δ)
    (h3 : ∀ dt ps pn, Δ.head? ≠ some (SyncEvent.fetch dt ps pn))
    (h4 : ∀ b, Δ.getLast? ≠ some (SyncEvent.store b)) :
    invTrace (tr ++ Δ) := by
  obtain ⟨hc, hl, hh⟩ := h1
  refine ⟨?_, ?_, ?_⟩
  · rw [List.chain'_append]
    refine ⟨hc, h2, ?_⟩
    intro x hx y hy
    constructor
    · intro dt ps pn hyf
      subst hyf
      exact absurd hy (h3 dt ps pn)
    · intro batch hxb
      subst hxb
      exact absurd hx (hl batch)
  · intro b
    cases hΔ : Δ with
    | nil =>
      subst hΔ
      simpa using hl b
    | cons e es =>
      rw [List.getLast?_append_of_ne_nil tr (by simp [hΔ])]
      rw [← hΔ]
      exact h4 b
  · intro dt ps pn
    cases htr : tr with
    | nil =>
      simpa using h3 dt ps pn
    | cons e es =>
      subst htr
      simpa using hh dt ps pn

lemma pagesLoop_inv (ab : Option ℕ) (remote : Remote) (dt g : ℕ) :
    ∀ (pages : List ℕ) (ts : ℕ) (tr : List SyncEvent), invTrace tr →
      invTrace (outTrace (pagesLoop ab remote dt g pages ts tr)) := by
  intro pages
  induction pages with
  | nil =>
    intro ts tr h
    simpa [pagesLoop, outTrace] using h
  | cons p rest ih =>
    intro ts tr h
    rcases pageStep_cases ab remote dt p ts g tr with ⟨Δ0, he, hshape⟩ | hok
    · have : pagesLoop ab remote dt g (p :: rest) ts tr = Except.error (tr ++ Δ0) := by
        rw [pagesLoop, he]
        simp [Bind.bind, Except.bind]
      rw [this]
      simp only [outTrace]
      rcases hshape with h2 | h2 | h2 <;> subst h2
      · exact inv_append tr _ h (by simp) (by simp) (by simp)
      · exact inv_append tr _ h (by simp [List.chain'_cons, stepOK]) (by simp) (by simp)
      · exact inv_append tr _ h (by simp [List.chain'_cons, stepOK]) (by simp) (by simp)
    · have hloop : pagesLoop ab remote dt g (p :: rest) ts tr =
          pagesLoop ab remote dt g rest (ts + (remote dt PAGE_SIZE p).foods.length)
            (tr ++ [SyncEvent.check, SyncEvent.check, SyncEvent.fetch dt PAGE_SIZE p,
              SyncEvent.store ((remote dt PAGE_SIZE p).foods.map mapUsdaFood),
              SyncEvent.saveResume ⟨dt, p + 1, ts + (remote dt PAGE_SIZE p).foods.length, g⟩]) := by
        rw [pagesLoop, hok]
        simp [Bind.bind, Except.bind]
      rw [hloop]
      refine ih _ _ (inv_append tr _ h ?_ (by simp) (by simp))
      simp [List.chain'_cons, stepOK]

lemma partitionStep_inv (ab : Option ℕ) (remote : Remote) (startIdx startPage dt ts g : ℕ)
    (tr : List SyncEvent) (h : invTrace tr) :
    invTrace (outTrace (partitionStep ab remote startIdx startPage dt ts g tr)) := by
  rcases fetchS_cases ab remote dt PAGE_SIZE 1 tr with hf | hf | hf
  · have : partitionStep ab remote startIdx startPage dt ts g tr =
        Except.error (tr ++ [SyncEvent.check]) := by
      rw [partitionStep, hf]
      simp [Bind.bind, Except.bind]
    rw [this]
    simp only [outTrace]
    exact inv_append tr _ h (by simp) (by simp) (by simp)
  · have : partitionStep ab remote startIdx startPage dt ts g tr =
        Except.error (tr ++ [SyncEvent.check, SyncEvent.fetch dt PAGE_SIZE 1]) := by
      rw [partitionStep, hf]
      simp [Bind.bind, Except.bind]
    rw [this]
    simp only [outTrace]
    exact inv_append tr _ h (by simp [List.chain'_cons, stepOK]) (by simp) (by simp)
  · by_cases hfp : (if dt = startIdx then startPage else 1) = 1
    · have hstep : partitionStep ab remote startIdx startPage dt ts g tr =
          pagesLoop ab remote dt g
            (List.range' (max (if dt = startIdx then startPage else 1) 2)
              (totalPagesOf remote dt + 1 - max (if dt = startIdx then startPage else 1) 2))
            (ts + (remote dt PAGE_SIZE 1).foods.length)
            (tr ++ [SyncEvent.check, SyncEvent.fetch dt PAGE_SIZE 1,
              SyncEvent.store ((remote dt PAGE_SIZE 1).foods.map mapUsdaFood),
              SyncEvent.saveResume ⟨dt, 2, ts + (remote dt PAGE_SIZE 1).foods.length, g⟩]) := by
        rw [partitionStep, hf]
        simp only [Bind.bind, Except.bind, hfp, if_pos, totalPagesOf]
        simp
      rw [hstep]
      refine pagesLoop_inv ab remote dt g _ _ _ (inv_append tr _ h ?_ (by simp) (by simp))
      simp [List.chain'_cons, stepOK]
    · have hstep : partitionStep ab remote startIdx startPage dt ts g tr =
          pagesLoop ab remote dt g
            (List.range' (max (if dt = startIdx then startPage else 1) 2)
              (totalPagesOf remote dt + 1 - max (if dt = startIdx then startPage else 1) 2))
            ts (tr ++ [SyncEvent.check, SyncEvent.fetch dt PAGE_SIZE 1]) := by
        rw [partitionStep, hf]
        simp only [Bind.bind, Except.bind, hfp, if_neg, totalPagesOf]
        simp
      rw [hstep]
      exact pagesLoop_inv ab remote dt g _ _ _
        (inv_append tr _ h (by simp [List.chain'_cons, stepOK]) (by simp) (by simp))

lemma partitionsLoop_inv (ab : Option ℕ) (remote : Remote) (startIdx startPage g : ℕ) :
    ∀ (dts : List ℕ) (ts : ℕ) (tr : List SyncEvent), invTrace tr →
      invTrace (outTrace (partitionsLoop ab remote startIdx startPage g dts ts tr)) := by
  intro dts
  induction dts with
  | nil =>
    intro ts tr h
    simpa [partitionsLoop, outTrace] using h
  | cons dt rest ih =>
    intro ts tr h
    cases hps : partitionStep ab remote startIdx startPage dt ts g tr with
    | error tr0 =>
      have : partitionsLoop ab remote startIdx startPage g (dt :: rest) ts tr =
          Except.error tr0 := by
        rw [partitionsLoop, hps]
        simp [Bind.bind, Except.bind]
      rw [this]
      have h2 := partitionStep_inv ab remote startIdx startPage dt ts g tr h
      rw [hps] at h2
      exact h2
    | ok res =>
      obtain ⟨tr1, ts1⟩ := res
      have hloop : partitionsLoop ab remote startIdx startPage g (dt :: rest) ts tr =
          partitionsLoop ab remote startIdx startPage g rest ts1 tr1 := by
        rw [partitionsLoop, hps]
        simp [Bind.bind, Except.bind]
      rw [hloop]
      have h2 := partitionStep_inv ab remote startIdx startPage dt ts g tr h
      rw [hps] at h2
      exact ih ts1 tr1 h2

lemma countProbes_inv (ab : Option ℕ) (remote : Remote) :
    ∀ (dts : List ℕ) (g : ℕ) (tr : List SyncEvent), invTrace tr →
      invTrace (outTrace (countProbes ab remote dts g tr)) := by
  intro dts
  induction dts with
  | nil =>
    intro g tr h
    simpa [countProbes, outTrace] using h
  | cons dt rest ih =>
    intro g tr h
    rcases fetchS_cases ab remote dt 1 1 tr with hf | hf | hf
    · have : countProbes ab remote (dt :: rest) g tr = Except.error (tr ++ [SyncEvent.check]) := by
        rw [countProbes, hf]
        simp [Bind.bind, Except.bind]
      rw [this]
      simp only [outTrace]
      exact inv_append tr _ h (by simp) (by simp) (by simp)
    · have : countProbes ab remote (dt :: rest) g tr =
          Except.error (tr ++ [SyncEvent.check, SyncEvent.fetch dt 1 1]) := by
        rw [countProbes, hf]
        simp [Bind.bind, Except.bind]
      rw [this]
      simp only [outTrace]
      exact inv_append tr _ h (by simp [List.chain'_cons, stepOK]) (by simp) (by simp)
    · have hloop : countProbes ab remote (dt :: rest) g tr =
          countProbes ab remote rest (g + (remote dt 1 1).totalHits)
            (tr ++ [SyncEvent.check, SyncEvent.fetch dt 1 1]) := by
        rw [countProbes, hf]
        simp [Bind.bind, Except.bind]
      rw [hloop]
      exact ih _ _ (inv_append tr _ h (by simp [List.chain'_cons, stepOK]) (by simp) (by simp))

lemma syncTrace_inv (remote : Remote) (resume : Option ResumeState) (ab : Option ℕ) :
    invTrace (syncTrace remote resume ab) := by
  have hparts : ∀ (sI sP g ts : ℕ) (tr : List SyncEvent), invTrace tr →
      invTrace (outTrace (partitionsLoop ab remote sI sP g
        (List.range' sI (dataTypesCount - sI)) ts tr)) :=
    fun sI sP g ts tr h => partitionsLoop_inv ab remote sI sP g _ ts tr h
  have hmain : ∀ (sI sP ts g0 : ℕ),
      syncUsdaDatabase remote resume ab =
        (do
          let init ←
            if g0 = 0 then countProbes ab remote [0, 1, 2] 0 []
            else pure ([], g0)
          let res ← partitionsLoop ab remote sI sP init.2
            (List.range' sI (dataTypesCount - sI)) ts init.1
          Except.ok (res.1 ++ [SyncEvent.clearResume, SyncEvent.updateMeta res.2])) →
      invTrace (syncTrace remote resume ab) := by
    intro sI sP ts g0 hdo
    rw [syncTrace, hdo]
    by_cases hg : g0 = 0
    · simp only [hg, if_pos]
      cases hcp : countProbes ab remote [0, 1, 2] 0 [] with
      | error trc =>
        simp only [Bind.bind, Except.bind]
        have h2 := countProbes_inv ab remote [0, 1, 2] 0 [] invTrace_nil
        rw [hcp] at h2
        exact h2
      | ok init =>
        obtain ⟨trc, gc⟩ := init
        have htrc : invTrace trc := by
          have h2 := countProbes_inv ab remote [0, 1, 2] 0 [] invTrace_nil
          rw [hcp] at h2
          exact h2
        simp only [Bind.bind, Except.bind]
        cases hpl : partitionsLoop ab remote sI sP gc (List.range' sI (dataTypesCount - sI)) ts trc with
        | error tr0 =>
          have h2 := hparts sI sP gc ts trc htrc
          rw [hpl] at h2
          exact h2
        | ok res =>
          obtain ⟨tr1, ts1⟩ := res
          simp only
          have h2 := hparts sI sP gc ts trc htrc
          rw [hpl] at h2
          simp only [outTrace] at h2
          exact inv_append tr1 _ h2 (by simp [List.chain'_cons, stepOK]) (by simp) (by simp)
    · simp only [hg, if_neg, if_false]
      simp only [Bind.bind, Except.bind, pure, Except.pure]
      cases hpl : partitionsLoop ab remote sI sP g0 (List.range' sI (dataTypesCount - sI)) ts [] with
      | error tr0 =>
        have h2 := hparts sI sP g0 ts [] invTrace_nil
        rw [hpl] at h2
        exact h2
      | ok res =>
        obtain ⟨tr1, ts1⟩ := res
        simp only
        have h2 := hparts sI sP g0 ts [] invTrace_nil
        rw [hpl] at h2
        simp only [outTrace] at h2
        exact inv_append tr1 _ h2 (by simp [List.chain'_cons, stepOK]) (by simp) (by simp)
  cases resume with
  | none => exact hmain 0 1 0 0 (by rw [syncUsdaDatabase])
  | some cp =>
    exact hmain cp.dataTypeIndex cp.pageNumber cp.totalStored cp.grandTotal (by rw [syncUsdaDatabase])

lemma endsCF_append_check (tr Δ : List SyncEvent) (h : Δ.getLast? = some SyncEvent.check) :
    (tr ++ Δ).getLast? = some SyncEvent.check ∨
      ∃ dt ps pn, (tr ++ Δ).getLast? = some (SyncEvent.fetch dt ps pn) := by
  left
  rw [List.getLast?_append_of_ne_nil tr (by intro hn; rw [hn] at h; simp at h)]
  exact h

lemma endsCF_append_fetch (tr Δ : List SyncEvent) (dt ps pn : ℕ)
    (h : Δ.getLast? = some (SyncEvent.fetch dt ps pn)) :
    (tr ++ Δ).getLast? = some SyncEvent.check ∨
      ∃ dt2 ps2 pn2, (tr ++ Δ).getLast? = some (SyncEvent.fetch dt2 ps2 pn2) := by
  right
  refine ⟨dt, ps, pn, ?_⟩
  rw [List.getLast?_append_of_ne_nil tr (by intro hn; rw [hn] at h; simp at h)]
  exact h

lemma pagesLoop_error_end (ab : Option ℕ) (remote : Remote) (dt g : ℕ) :
    ∀ (pages : List ℕ) (ts : ℕ) (tr : List SyncEvent) (tr0 : List SyncEvent),
      pagesLoop ab remote dt g pages ts tr = Except.error tr0 →
      tr0.getLast? = some SyncEvent.check ∨
        ∃ d p q, tr0.getLast? = some (SyncEvent.fetch d p q) := by
  intro pages
  induction pages with
  | nil =>
    intro ts tr tr0 h
    simp [pagesLoop] at h
  | cons p rest ih =>
    intro ts tr tr0 h
    rcases pageStep_cases ab remote dt p ts g tr with ⟨Δ0, he, hshape⟩ | hok
    · rw [pagesLoop, he] at h
      simp only [Bind.bind, Except.bind, Except.error.injEq] at h
      subst h
      rcases hshape with h2 | h2 | h2 <;> subst h2
      · exact endsCF_append_check tr _ rfl
      · exact endsCF_append_check tr _ rfl
      · exact endsCF_append_fetch tr _ dt PAGE_SIZE p rfl
    · rw [pagesLoop, hok] at h
      simp only [Bind.bind, Except.bind] at h
      exact ih _ _ _ h

lemma partitionStep_error_end (ab : Option ℕ) (remote : Remote) (startIdx startPage dt ts g : ℕ)
    (tr tr0 : List SyncEvent)
    (h : partitionStep ab remote startIdx startPage dt ts g tr = Except.error tr0) :
    tr0.getLast? = some SyncEvent.check ∨
      ∃ d p q, tr0.getLast? = some (SyncEvent.fetch d p q) := by
  rcases fetchS_cases ab remote dt PAGE_SIZE 1 tr with hf | hf | hf
  · rw [partitionStep, hf] at h
    simp only [Bind.bind, Except.bind, Except.error.injEq] at h
    subst h
    exact endsCF_append_check tr _ rfl
  · rw [partitionStep, hf] at h
    simp only [Bind.bind, Except.bind, Except.error.injEq] at h
    subst h
    exact endsCF_append_fetch tr _ dt PAGE_SIZE 1 rfl
  · rw [partitionStep, hf] at h
    simp only [Bind.bind, Except.bind] at h
    exact pagesLoop_error_end ab remote dt g _ _ _ _ h

lemma partitionsLoop_error_end (ab : Option ℕ) (remote : Remote) (startIdx startPage g : ℕ) :
    ∀ (dts : List ℕ) (ts : ℕ) (tr tr0 : List SyncEvent),
      partitionsLoop ab remote startIdx startPage g dts ts tr = Except.error tr0 →
      tr0.getLast? = some SyncEvent.check ∨
        ∃ d p q, tr0.getLast? = some (SyncEvent.fetch d p q) := by
  intro dts
  induction dts with
  | nil =>
    intro ts tr tr0 h
    simp [partitionsLoop] at h
  | cons dt rest ih =>
    intro ts tr tr0 h
    cases hps : partitionStep ab remote startIdx startPage dt ts g tr with
    | error trx =>
      rw [partitionsLoop, hps] at h
      simp only [Bind.bind, Except.bind, Except.error.injEq] at h
      subst h
      exact partitionStep_error_end ab remote startIdx startPage dt ts g tr trx hps
    | ok res =>
      obtain ⟨tr1, ts1⟩ := res
      rw [partitionsLoop, hps] at h
      simp only [Bind.bind, Except.bind] at h
      exact ih _ _ _ h

lemma countProbes_error_end (ab : Option ℕ) (remote : Remote) :
    ∀ (dts : List ℕ) (g : ℕ) (tr tr0 : List SyncEvent),
      countProbes ab remote dts g tr = Except.error tr0 →
      tr0.getLast? = some SyncEvent.check ∨
        ∃ d p q, tr0.getLast? = some (SyncEvent.fetch d p q) := by
  intro dts
  induction dts with
  | nil =>
    intro g tr tr0 h
    simp [countProbes] at h
  | cons dt rest ih =>
    intro g tr tr0 h
    rcases fetchS_cases ab remote dt 1 1 tr with hf | hf | hf
    · rw [countProbes, hf] at h
      simp only [Bind.bind, Except.bind, Except.error.injEq] at h
      subst h
      exact endsCF_append_check tr _ rfl
    · rw [countProbes, hf] at h
      simp only [Bind.bind, Except.bind, Except.error.injEq] at h
      subst h
      exact endsCF_append_fetch tr _ dt 1 1 rfl
    · rw [countProbes, hf] at h
      simp only [Bind.bind, Except.bind] at h
      exact ih _ _ _ h

lemma syncUsdaDatabase_error_end (remote : Remote) (resume : Option ResumeState) (ab : Option ℕ)
    (tr0 : List SyncEvent) (h : syncUsdaDatabase remote resume ab = Except.error tr0) :
    tr0.getLast? = some SyncEvent.check ∨
      ∃ d p q, tr0.getLast? = some (SyncEvent.fetch d p q) := by
  have hmain : ∀ (sI sP ts g0 : ℕ),
      syncUsdaDatabase remote resume ab =
        (do
          let init ←
            if g0 = 0 then countProbes ab remote [0, 1, 2] 0 []
            else pure ([], g0)
          let res ← partitionsLoop ab remote sI sP init.2
            (List.range' sI (dataTypesCount - sI)) ts init.1
          Except.ok (res.1 ++ [SyncEvent.clearResume, SyncEvent.updateMeta res.2])) →
      (tr0.getLast? = some SyncEvent.check ∨
        ∃ d p q, tr0.getLast? = some (SyncEvent.fetch d p q)) := by
    intro sI sP ts g0 hdo
    rw [hdo] at h
    by_cases hg : g0 = 0
    · simp only [hg, if_pos] at h
      cases hcp : countProbes ab remote [0, 1, 2] 0 [] with
      | error trc =>
        rw [hcp] at h
        simp only [Bind.bind, Except.bind, Except.error.injEq] at h
        subst h
        exact countProbes_error_end ab remote [0, 1, 2] 0 [] trc hcp
      | ok init =>
        obtain ⟨trc, gc⟩ := init
        rw [hcp] at h
        simp only [Bind.bind, Except.bind] at h
        cases hpl : partitionsLoop ab remote sI sP gc (List.range' sI (dataTypesCount - sI)) ts trc with
        | error trx =>
          rw [hpl] at h
          simp only [Except.error.injEq] at h
          subst h
          exact partitionsLoop_error_end ab remote sI sP gc _ ts trc trx hpl
        | ok res =>
          obtain ⟨tr1, ts1⟩ := res
          rw [hpl] at h
          simp at h
    · simp only [hg, if_neg, if_false] at h
      simp only [Bind.bind, Except.bind, pure, Except.pure] at h
      cases hpl : partitionsLoop ab remote sI sP g0 (List.range' sI (dataTypesCount - sI)) ts [] with
      | error trx =>
        rw [hpl] at h
        simp only [Except.error.injEq] at h
        subst h
        exact partitionsLoop_error_end ab remote sI sP g0 _ ts [] trx hpl
      | ok res =>
        obtain ⟨tr1, ts1⟩ := res
        rw [hpl] at h
        simp at h
  cases resume with
  | none => exact hmain 0 1 0 0 (by rw [syncUsdaDatabase])
  | some cp =>
    exact hmain cp.dataTypeIndex cp.pageNumber cp.totalStored cp.grandTotal (by rw [syncUsdaDatabase])

lemma chain'_get_rel {α : Type} (R : α → α → Prop) (l : List α) (h : List.Chain' R l)
    (i : ℕ) (x y : α) (hx : l.get? i = some x) (hy : l.get? (i + 1) = some y) : R x y := by
  rw [List.chain'_iff_get] at h
  obtain ⟨hi1, hg1⟩ := List.get?_eq_some.mp hx
  obtain ⟨hi2, hg2⟩ := List.get?_eq_some.mp hy
  have h2 := h i (by omega)
  rw [show l.get ⟨i, by omega⟩ = x from hg1, show l.get ⟨i + 1, by omega⟩ = y from hg2] at h2
  exact h2

lemma invTrace_fetch_pred (tr : List SyncEvent) (h : invTrace tr) (i dt ps pn : ℕ)
    (hf : tr.get? (i + 1) = some (SyncEvent.fetch dt ps pn)) :
    tr.get? i = some SyncEvent.check := by
  obtain ⟨hi1, hg1⟩ := List.get?_eq_some.mp hf
  have hxe : tr.get? i = some (tr.get ⟨i, by omega⟩) := List.get?_eq_get (by omega)
  have hrel := chain'_get_rel stepOK tr h.1 i _ _ hxe hf
  rw [hxe, hrel.1 dt ps pn rfl]

lemma invTrace_store_succ (tr : List SyncEvent) (h : invTrace tr) (i : ℕ)
    (b : List UsdaStoredFood) (hs : tr.get? i = some (SyncEvent.store b)) :
    ∃ cp, tr.get? (i + 1) = some (SyncEvent.saveResume cp) := by
  obtain ⟨hi, hg⟩ := List.get?_eq_some.mp hs
  have hlt : i + 1 < tr.length := by
    by_contra hc
    have heq : i = tr.length - 1 := by omega
    have hL : tr.getLast? = some (SyncEvent.store b) := by
      rw [List.getLast?_eq_get?, ← heq]
      exact hs
    exact h.2.1 b hL
  have hy : tr.get? (i + 1) = some (tr.get ⟨i + 1, hlt⟩) := List.get?_eq_get hlt
  have hrel := chain'_get_rel stepOK tr h.1 i _ _ hs hy
  obtain ⟨cp, hcp⟩ := hrel.2 b rfl
  exact ⟨cp, by rw [hy, hcp]⟩

lemma sleepR_cases (ab : Option ℕ) (ms : ℕ) (tr : List REvent) :
    sleepR ab ms tr = Except.error (tr ++ [REvent.check]) ∨
    sleepR ab ms tr = Except.error (tr ++ [REvent.check, REvent.sleep ms]) ∨
    sleepR ab ms tr = Except.ok (tr ++ [REvent.check, REvent.sleep ms]) := by
  rw [sleepR]
  by_cases h1 : abortedAt ab tr.length = true
  · left
    simp [h1]
  · by_cases h2 : abortedAt ab (tr ++ [REvent.check]).length = true
    · right; left
      simp only [List.length_append, List.length_cons, List.length_nil] at h2
      simp [h1, h2]
    · right; right
      simp only [List.length_append, List.length_cons, List.length_nil] at h2
      simp [h1, h2]

lemma rinv_append (tr Δ : List REvent)
    (h1 : List.Chain' RstepOK tr ∧ (∀ ms, tr.head? ≠ some (REvent.sleep ms)))
    (h2 : List.Chain' RstepOK Δ)
    (h3 : ∀ ms, Δ.head? ≠ some (REvent.sleep ms)) :
    List.Chain' RstepOK (tr ++ Δ) ∧ (∀ ms, (tr ++ Δ).head? ≠ some (REvent.sleep ms)) := by
  constructor
  · rw [List.chain'_append]
    refine ⟨h1.1, h2, ?_⟩
    intro x hx y hy
    intro ms hms
    subst hms
    exact absurd hy (h3 ms)
  · intro ms
    cases htr : tr with
    | nil => simpa using h3 ms
    | cons e es =>
      subst htr
      simpa using h1.2 ms

lemma fwrGo_chain (responses : ℕ → FetchOutcome) (ab : Option ℕ) :
    ∀ (fuel attempt : ℕ) (tr : List REvent),
      List.Chain' RstepOK tr ∧ (∀ ms, tr.head? ≠ some (REvent.sleep ms)) →
      List.Chain' RstepOK (fetchWithRetryGo responses ab fuel attempt tr).1 ∧
        (∀ ms, (fetchWithRetryGo responses ab fuel attempt tr).1.head? ≠ some (REvent.sleep ms)) := by
  intro fuel
  induction fuel with
  | zero =>
    intro attempt tr h
    exact h
  | succ fuel ih =>
    intro attempt tr h
    have hca : List.Chain' RstepOK (tr ++ [REvent.check, REvent.attempt attempt]) ∧
        (∀ ms, (tr ++ [REvent.check, REvent.attempt attempt]).head? ≠ some (REvent.sleep ms)) :=
      rinv_append tr _ h (by simp [List.chain'_cons, RstepOK]) (by simp)
    have hsleep : ∀ ms0,
        List.Chain' RstepOK
          ((match sleepR ab ms0 (tr ++ [REvent.check, REvent.attempt attempt]) with
            | Except.error tr3 => (tr3, RResult.cancelled)
            | Except.ok tr3 => fetchWithRetryGo responses ab fuel (attempt + 1) tr3).1) ∧
        (∀ ms, (match sleepR ab ms0 (tr ++ [REvent.check, REvent.attempt attempt]) with
            | Except.error tr3 => (tr3, RResult.cancelled)
            | Except.ok tr3 => fetchWithRetryGo responses ab fuel (attempt + 1) tr3).1.head? ≠
          some (REvent.sleep ms)) := by
      intro ms0
      rcases sleepR_cases ab ms0 (tr ++ [REvent.check, REvent.attempt attempt]) with hs | hs | hs
      · rw [hs]
        simp only
        rw [List.append_assoc]
        exact rinv_append tr _ h (by simp [List.chain'_cons, RstepOK]) (by simp)
      · rw [hs]
        simp only
        rw [List.append_assoc]
        exact rinv_append tr _ h (by simp [List.chain'_cons, RstepOK]) (by simp)
      · rw [hs]
        refine ih (attempt + 1) _ ?_
        rw [List.append_assoc]
        exact rinv_append tr _ h (by simp [List.chain'_cons, RstepOK]) (by simp)
    rw [fetchWithRetryGo]
    by_cases h1 : abortedAt ab tr.length = true
    · simp only [h1, if_true]
      exact rinv_append tr _ h (by simp) (by simp)
    · simp only [h1, if_false, Bool.false_eq_true]
      by_cases h2 : abortedAt ab (tr ++ [REvent.check]).length = true
      · simp only [h2, if_true]
        by_cases h3 : attempt < MAX_RETRIES
        · simp only [h3, if_true]
          rw [show (tr ++ [REvent.check]) ++ [REvent.attempt attempt] =
            tr ++ [REvent.check, REvent.attempt attempt] by simp]
          exact hsleep (INITIAL_BACKOFF_MS * 2 ^ attempt)
        · simp only [h3, if_false]
          rw [show (tr ++ [REvent.check]) ++ [REvent.attempt attempt] =
            tr ++ [REvent.check, REvent.attempt attempt] by simp]
          exact hca
      · simp only [h2, if_false, Bool.false_eq_true]
        cases hresp : responses attempt with
        | netError =>
          by_cases h3 : attempt < MAX_RETRIES
          · simp only [h3, if_true]
            rw [show (tr ++ [REvent.check]) ++ [REvent.attempt attempt] =
              tr ++ [REvent.check, REvent.attempt attempt] by simp]
            exact hsleep (INITIAL_BACKOFF_MS * 2 ^ attempt)
          · simp only [h3, if_false]
            rw [show (tr ++ [REvent.check]) ++ [REvent.attempt attempt] =
              tr ++ [REvent.check, REvent.attempt attempt] by simp]
            exact hca
        | response status =>
          by_cases h4 : status = 429
          · simp only [h4, if_true, if_pos rfl]
            rw [show (tr ++ [REvent.check]) ++ [REvent.attempt attempt] =
              tr ++ [REvent.check, REvent.attempt attempt] by simp]
            exact hsleep RATE_LIMIT_WAIT_MS
          · simp only [h4, if_false]
            by_cases h5 : 200 ≤ status ∧ status < 300
            · rw [if_pos h5]
              rw [show (tr ++ [REvent.check]) ++ [REvent.attempt attempt] =
                tr ++ [REvent.check, REvent.attempt attempt] by simp]
              exact hca
            · rw [if_neg h5]
              by_cases h6 : 500 ≤ status ∧ attempt < MAX_RETRIES
              · rw [if_pos h6]
                rw [show (tr ++ [REvent.check]) ++ [REvent.attempt attempt] =
                  tr ++ [REvent.check, REvent.attempt attempt] by simp]
                exact hsleep (INITIAL_BACKOFF_MS * 2 ^ attempt)
              · rw [if_neg h6]
                by_cases h7 : attempt < MAX_RETRIES
                · rw [if_pos h7]
                  rw [show (tr ++ [REvent.check]) ++ [REvent.attempt attempt] =
                    tr ++ [REvent.check, REvent.attempt attempt] by simp]
                  exact hsleep (INITIAL_BACKOFF_MS * 2 ^ attempt)
                · rw [if_neg h7]
                  rw [show (tr ++ [REvent.check]) ++ [REvent.attempt attempt] =
                    tr ++ [REvent.check, REvent.attempt attempt] by simp]
                  exact hca

lemma fetchWithRetry_sleep_pred (responses : ℕ → FetchOutcome) (ab : Option ℕ) :
    (∀ ms, (fetchWithRetry responses ab).1.head? ≠ some (REvent.sleep ms)) ∧
    (∀ i ms, (fetchWithRetry responses ab).1.get? (i + 1) = some (REvent.sleep ms) →
      (fetchWithRetry responses ab).1.get? i = some REvent.check) := by
  have h := fwrGo_chain responses ab (MAX_RETRIES + 1) 0 [] ⟨by simp, by simp⟩
  rw [fetchWithRetry]
  constructor
  · exact h.2
  · intro i ms hs
    obtain ⟨hi1, hg1⟩ := List.get?_eq_some.mp hs
    have hxe : (fetchWithRetryGo responses ab (MAX_RETRIES + 1) 0 []).1.get? i =
        some ((fetchWithRetryGo responses ab (MAX_RETRIES + 1) 0 []).1.get ⟨i, by omega⟩) :=
      List.get?_eq_get (by omega)
    have hrel := chain'_get_rel RstepOK _ h.1 i _ _ hxe hs
    rw [hxe, hrel ms rfl]

/-- C7 (amended): for every abort time and remote source, the run trace
checks the signal immediately before every remote request (the trace never
starts with a request), every committed batch is immediately followed by
its checkpoint write (so no records are committed without a matching
checkpoint, and after the last checkpoint of a cancelled run no batch is
committed — at most the in-flight page is lost), a cancelled run ends at
the observing check or at the aborted in-flight request, and inside the
retry wrapper every retry sleep is immediately preceded by a signal check.
There is, however, no check immediately before a batch write (see the
counterexample): the nearest check precedes the fetch of the same page. -/
theorem cancellation_discipline (ab : Option ℕ) (remote : Remote) (resume : Option ResumeState)
    (responses : ℕ → FetchOutcome) (ab2 : Option ℕ) :
    (∀ dt ps pn, (syncTrace remote resume ab).head? ≠ some (SyncEvent.fetch dt ps pn)) ∧
    (∀ i dt ps pn, (syncTrace remote resume ab).get? (i + 1) = some (SyncEvent.fetch dt ps pn) →
      (syncTrace remote resume ab).get? i = some SyncEvent.check) ∧
    (∀ i batch, (syncTrace remote resume ab).get? i = some (SyncEvent.store batch) →
      ∃ cp, (syncTrace remote resume ab).get? (i + 1) = some (SyncEvent.saveResume cp)) ∧
    (∀ tr1, syncUsdaDatabase remote resume ab = Except.error tr1 →
      tr1.getLast? = some SyncEvent.check ∨
        ∃ d p q, tr1.getLast? = some (SyncEvent.fetch d p q)) ∧
    (∀ ms, (fetchWithRetry responses ab2).1.head? ≠ some (REvent.sleep ms)) ∧
    (∀ i ms, (fetchWithRetry responses ab2).1.get? (i + 1) = some (REvent.sleep ms) →
      (fetchWithRetry responses ab2).1.get? i = some REvent.check) := by
  have hinv := syncTrace_inv remote resume ab
  have hfr := fetchWithRetry_sleep_pred responses ab2
  exact ⟨hinv.2.2,
    fun i dt ps pn => invTrace_fetch_pred _ hinv i dt ps pn,
    fun i b => invTrace_store_succ _ hinv i b,
    fun tr1 h => syncUsdaDatabase_error_end remote resume ab tr1 h,
    hfr.1, hfr.2⟩

/-- C7: counterexample — the event immediately before a batch write is the
remote request that produced the page, not a signal check: the claim that
the signal is checked before every batch write does not hold of the code,
which checks only before remote calls and before retry sleeps. -/
theorem store_not_preceded_by_check :
    (syncTrace tinyRemote none none).get? 8 = some (SyncEvent.store []) ∧
    (syncTrace tinyRemote none none).get? 7 = some (SyncEvent.fetch 0 PAGE_SIZE 1) ∧
    SyncEvent.fetch 0 PAGE_SIZE 1 ≠ SyncEvent.check := by
  refine ⟨by decide, by decide, by decide⟩

/-- C7 witness: on a concrete run, the event before the first full-size
page request is a check, and the event after the first batch write is its
checkpoint write. -/
theorem cancellation_discipline_witness :
    (syncTrace tinyRemote none none).get? 6 = some SyncEvent.check ∧
    ∃ cp, (syncTrace tinyRemote none none).get? 9 = some (SyncEvent.saveResume cp) :=
  ⟨(cancellation_discipline none tinyRemote none (fun _ => FetchOutcome.response 200) none).2.1
      6 0 PAGE_SIZE 1 (by decide),
    (cancellation_discipline none tinyRemote none (fun _ => FetchOutcome.response 200) none).2.2.1
      8 [] (by decide)⟩

/-- C2: counterexample — resuming at partition 1, page 5 still issues a
full-page-size request for page 1 of partition 1 (the page-count probe),
so the claim that pages 1-4 of partition 1 are never re-fetched does not
hold as stated. -/
theorem resume_refetches_probe_page :
    SyncEvent.fetch 1 PAGE_SIZE 1 ∈ syncTrace emptyPagesRemote (some ⟨1, 5, 900, 6000⟩) none := by
  decide

/-- C2 witness: on a concrete remote with ten pages per partition, the
resumed run issues no partition-0 request and does fetch partition 1 page
7. -/
theorem resume_checkpoint_behavior_witness :
    SyncEvent.fetch 0 PAGE_SIZE 1 ∉ syncTrace emptyPagesRemote (some ⟨1, 5, 900, 6000⟩) none ∧
    SyncEvent.fetch 1 PAGE_SIZE 7 ∈ syncTrace emptyPagesRemote (some ⟨1, 5, 900, 6000⟩) none :=
  ⟨(resume_checkpoint_behavior emptyPagesRemote 6000 (by norm_num)).1 PAGE_SIZE 1,
    (resume_checkpoint_behavior emptyPagesRemote 6000 (by norm_num)).2.2.2.2.2 7 (by norm_num)
      (by decide)⟩

end CalTrack
